import Mathlib

set_option maxRecDepth 8192

/-!
# chat-flow websocket broker: shallow embedding

This file embeds the realtime chat broker of `websocket-server/server.ts`
(the `ChatServer` class, first variant) and, for the empty-room-cleanup
comparison, the `handleLeaveRoom` of `websocket-server/server.js`.

Conventions of the embedding:
* JS `Map<string, V>` becomes an association list `List (String × V)` with
  `smFind` / `smSet` / `smErase` mirroring `get` / `set` / `delete`.
* `uuidv4()` is modelled as an injective fresh-identifier supply driven by a
  counter threaded through the state (`ServerState.nextId`); collisions of
  uuidv4 are assumed impossible.
* `Date.now()` / `new Date()` is the state's logical clock `ServerState.now`;
  no claim under study depends on clock advance, so the clock is held fixed
  inside a dispatch.
* `ws.send` effects are collected into an output list of `Send` records;
  `sendResponse`'s `readyState === 1` guard becomes a check of `Conn.isOpen`.
* `ws.terminate()` / deferred `ws.close(...)` set `Conn.isOpen := false`; a
  socket that `handleAuth` additionally deletes from `this.clients` is removed
  from the `clients` list (the raw socket lingering in `wss.clients` until its
  close event is never OPEN, hence invisible to `broadcastToRoom`, so removal
  is observationally equivalent).
* `JSON.parse` of the inbound data is abstracted by the `Decoded` type which
  records exactly which validation branch of `parseMessage` an input hits.
-/

/-- Association-list model of a JS `Map<string, α>`: `get` (first entry with
the key; every map the server builds has pairwise-distinct keys). -/
def smFind {α : Type} (m : List (String × α)) (k : String) : Option α :=
  match m with
  | [] => none
  | p :: t => if p.1 = k then some p.2 else smFind t k

/-- Association-list model of a JS `Map<string, α>`: `set` — replace the value
at an existing key in place, otherwise append (JS `Map` insertion order). -/
def smSet {α : Type} (m : List (String × α)) (k : String) (v : α) : List (String × α) :=
  match m with
  | [] => [(k, v)]
  | p :: t => if p.1 = k then (k, v) :: t else p :: smSet t k v

/-- Association-list model of a JS `Map<string, α>`: `delete`. -/
def smErase {α : Type} (m : List (String × α)) (k : String) : List (String × α) :=
  match m with
  | [] => []
  | p :: t => if p.1 = k then smErase t k else p :: smErase t k

/-- Model of the `uuid` library's `uuidv4()`: the `n`-th identifier drawn from
the fresh supply.  Injective by construction (distinct lengths). -/
def uuid (n : Nat) : String :=
  String.mk (List.replicate (n + 1) '#')

/-- `CustomWebSocket`: the per-socket fields the server reads/writes
(`id`, `userId`, `ip`, and the OPEN readyState). -/
structure Conn where
  id : String
  userId : Option String
  ip : String
  isOpen : Bool
  deriving Repr, DecidableEq

/-- `User` record of server.ts (fields the broker logic reads). -/
structure User where
  id : String
  username : String
  status : String
  lastSeen : Nat
  token : String
  ip : String
  deriving Repr, DecidableEq

/-- `Room` record of server.ts.  `members` is the `Set<string>` of user ids,
kept in insertion order. -/
structure Room where
  id : String
  name : String
  description : String
  rtype : String
  members : List String
  createdAt : Nat
  createdBy : String
  isActive : Bool
  deriving Repr, DecidableEq

/-- `Message` record of server.ts.  `content` is `Option String` because the
dispatcher casts the payload without validation, so the stored content is
whatever the frame carried (possibly absent). -/
structure Message where
  id : String
  roomId : String
  userId : String
  username : String
  content : Option String
  timestamp : Nat
  mtype : String
  deriving Repr, DecidableEq

/-- The payload object of an inbound frame, with every field optional: the
server casts (`message as z.infer<...>`) instead of validating, so any field
may be missing. -/
structure RawPayload where
  token : Option String := none
  username : Option String := none
  roomId : Option String := none
  content : Option String := none
  mtype : Option String := none
  isTyping : Option Bool := none
  deriving Repr, DecidableEq

/-- Outbound events (`sendResponse` / `sendError` / `broadcastToRoom`
payload shapes, identified by their `type` tag). -/
inductive OutEvent where
  | errorEv (code : String) (msg : String) (requestId : Option String)
  | authSuccess (userId : String) (username : String) (requestId : Option String)
  | initialState (userId : String) (memberRoomIds : List String)
  | roomJoined (roomId : String) (messages : List Message)
      (memberIds : List String) (requestId : Option String)
  | userJoined (userId : String) (username : String) (roomId : String)
  | userLeft (userId : String) (username : String) (roomId : String)
  | newMessage (m : Message) (requestId : Option String)
  | typingUpdate (roomId : String) (userId : String) (username : String) (isTyping : Bool)
  | userStatusChanged (userId : String) (username : String) (status : String) (lastSeen : Nat)
  | pong (requestId : Option String)
  | roomLeft (roomId : String) (userId : String)
  deriving Repr, DecidableEq

/-- One `ws.send` performed by the server: target connection and event. -/
structure Send where
  connId : String
  event : OutEvent
  deriving Repr, DecidableEq

/-- The whole in-memory state of `ChatServer` (plus the uuid supply and the
`rate-limiter-flexible` per-key buckets). -/
structure ServerState where
  clients : List Conn
  users : List (String × User)
  rooms : List (String × Room)
  typingUsers : List (String × List String)
  messageHistory : List (String × List Message)
  rateBuckets : List (String × Nat)
  nextId : Nat
  now : Nat
  deriving Repr, DecidableEq

/-- `MAX_MESSAGES_PER_ROOM` of server.ts. -/
def MAX_MESSAGES_PER_ROOM : Nat := 1000

/-- Points of the `RateLimiterMemory` (`points: 10, duration: 1`). -/
def RATE_LIMIT_POINTS : Nat := 10

/-- Look a connection up by id in the client list. -/
def findConn (s : ServerState) (connId : String) : Option Conn :=
  s.clients.find? (fun c => c.id == connId)

/-- Replace the connection with the given id by `f` of it. -/
def updateConn (cs : List Conn) (connId : String) (f : Conn → Conn) : List Conn :=
  cs.map (fun c => if c.id == connId then f c else c)

/-- `sendResponse` / `sendError`: a frame is emitted only when
`ws.readyState === 1`. -/
def sendTo (c : Conn) (ev : OutEvent) : List Send :=
  if c.isOpen then [⟨c.id, ev⟩] else []

/-- The recipient filter of `broadcastToRoom`:
`client !== excludeWs && room.members.has(client.userId!)` together with the
`readyState === 1` guard before the actual `send`. -/
def wantsBroadcast (room : Room) (excludeId : Option String) (c : Conn) : Bool :=
  (match excludeId with
   | some e => c.id != e
   | none => true)
  && (match c.userId with
      | some u => room.members.contains u
      | none => false)
  && c.isOpen

/-- `ChatServer.broadcastToRoom`: resolve the room, then send the serialized
event to every open client whose `userId` is a room member, except the
excluded (triggering) socket. -/
def broadcastToRoom (s : ServerState) (roomId : String) (excludeId : Option String)
    (ev : OutEvent) : List Send :=
  match smFind s.rooms roomId with
  | none => []
  | some room => (s.clients.filter (wantsBroadcast room excludeId)).map (fun c => ⟨c.id, ev⟩)

/-- `ChatServer.notifyUserStatusChange`: broadcast `USER_STATUS_CHANGED` to
every room the user is a member of (no exclusion). -/
def notifyUserStatusChange (s : ServerState) (userId : String) (status : String) : List Send :=
  match smFind s.users userId with
  | none => []
  | some user =>
    (s.rooms.filter (fun p => p.2.members.contains userId)).flatMap
      (fun p => broadcastToRoom s p.1 none
        (.userStatusChanged user.id user.username status user.lastSeen))

/-- `messages.slice(-n)`: the last `n` entries (all of them when the list is
shorter), oldest first. -/
def sliceLast {α : Type} (n : Nat) (l : List α) : List α :=
  l.drop (l.length - n)

/-- The history-append step of `handleChatMessage`:
`roomMessages.push(newMessage)` followed by
`if (roomMessages.length > MAX_MESSAGES_PER_ROOM) roomMessages.splice(0, roomMessages.length - MAX_MESSAGES_PER_ROOM)`. -/
def appendCapped (msgs : List Message) (m : Message) : List Message :=
  if MAX_MESSAGES_PER_ROOM < (msgs ++ [m]).length then
    (msgs ++ [m]).drop ((msgs ++ [m]).length - MAX_MESSAGES_PER_ROOM)
  else msgs ++ [m]

/-- Shared tail of `handleAuth`'s success path: `AUTH_SUCCESS` reply,
`sendInitialState` (the rooms the user is a member of), and
`notifyUserStatusChange(userId, 'online')`.  The low-level `ws.ping()` probe
is not a JSON frame and is not modelled. -/
def finishAuth (s : ServerState) (c : Conn) (userId : String) (username : String)
    (requestId : Option String) (pre : List Send) : ServerState × List Send :=
  let memberRooms := (s.rooms.filter (fun p => p.2.members.contains userId)).map (fun p => p.1)
  (s, pre ++ sendTo c (.authSuccess userId username requestId)
        ++ sendTo c (.initialState userId memberRooms)
        ++ notifyUserStatusChange s userId "online")

/-- `handleAuth`'s catch block: `AUTH_ERROR` to the sender, then
`ws.close(4000)` shortly after (modelled as closing now). -/
def authFail (s : ServerState) (c : Conn) (msg : String) (requestId : Option String) :
    ServerState × List Send :=
  ({ s with clients := updateConn s.clients c.id (fun c' => { c' with isOpen := false }) },
   sendTo c (.errorEv "AUTH_ERROR" msg requestId))

/-- `ChatServer.handleAuth`.  A missing payload object makes the destructuring
throw inside the handler's own try/catch, landing in the same `AUTH_ERROR`
path.  The token "validation" is the literal `token !== username` check. -/
def handleAuth (s : ServerState) (c : Conn) (pl : Option RawPayload)
    (requestId : Option String) : ServerState × List Send :=
  match pl with
  | none => authFail s c "Cannot read payload" requestId
  | some p =>
    let token := p.token.getD ""   -- `!token` is truthy-false for undefined and ''
    let username := p.username.getD ""
    if token = "" ∨ username = "" then
      authFail s c "Username and token are required" requestId
    else if token ≠ username then
      authFail s c "Invalid token" requestId
    else
      match (s.users.map (fun p => p.2)).find? (fun u => u.username == username) with
      | some u =>
        -- existing user: refresh the record, then disconnect duplicates
        let userId := u.id
        let users' := smSet s.users userId
          { u with status := "online", lastSeen := s.now, ip := c.ip }
        let dups := s.clients.filter (fun cl => cl.userId == some userId && cl.id != c.id)
        let dupSends := dups.flatMap (fun cl =>
          sendTo cl (.errorEv "DUPLICATE_CONNECTION"
            "New connection established from another location" requestId))
        let clients' := s.clients.filter
          (fun cl => !(cl.userId == some userId && cl.id != c.id))
        let clients'' := updateConn clients' c.id (fun c' => { c' with userId := some userId })
        finishAuth { s with users := users', clients := clients'' } c userId username
          requestId dupSends
      | none =>
        -- new user: `user-${uuidv4()}`
        let userId := "user-" ++ uuid s.nextId
        let user : User := { id := userId, username := username, status := "online",
                             lastSeen := s.now, token := token, ip := c.ip }
        let users' := smSet s.users userId user
        let clients' := updateConn s.clients c.id (fun c' => { c' with userId := some userId })
        finishAuth { s with users := users', clients := clients', nextId := s.nextId + 1 }
          c userId username requestId []

/-- `ChatServer.handleJoinRoom`.  The handler is `async` and is invoked without
`await`, so an exception thrown by destructuring a missing payload or by
`roomId.slice` on a missing `roomId` surfaces as an unhandled promise
rejection: no reply and no state change.  Both throwing paths happen before
any mutation, so they are modelled as no-ops. -/
def handleJoinRoom (s : ServerState) (c : Conn) (pl : Option RawPayload)
    (requestId : Option String) : ServerState × List Send :=
  match c.userId with
  | none => (s, sendTo c (.errorEv "UNAUTHORIZED" "Not authenticated" requestId))
  | some uid =>
    match pl with
    | none => (s, [])
    | some p =>
      match smFind s.users uid with
      | none => (s, sendTo c (.errorEv "USER_NOT_FOUND" "User not found" requestId))
      | some user =>
        match p.roomId with
        | none => (s, [])
        | some roomId =>
          -- get-or-create the room (implicit public room on unknown id)
          let (room, s1) :=
            match smFind s.rooms roomId with
            | some r => (r, s)
            | none =>
              let r : Room := { id := roomId, name := "Room " ++ roomId.take 8,
                                description := "A new chat room", rtype := "public",
                                members := [], createdAt := s.now, createdBy := uid,
                                isActive := true }
              (r, { s with rooms := smSet s.rooms roomId r,
                           messageHistory := smSet s.messageHistory roomId [] })
          -- membership add + USER_JOINED broadcast only when not already a member
          let (s2, joinSends) :=
            if room.members.contains uid then (s1, [])
            else
              let room' := { room with members := room.members ++ [uid] }
              let s2 := { s1 with rooms := smSet s1.rooms roomId room' }
              (s2, broadcastToRoom s2 roomId (some c.id)
                (.userJoined user.id user.username roomId))
          let msgs := (smFind s2.messageHistory roomId).getD []
          let roomNow := (smFind s2.rooms roomId).getD room
          (s2, joinSends ++ sendTo c
            (.roomJoined roomId (sliceLast 100 msgs) roomNow.members requestId))

/-- `ChatServer.handleLeaveRoom` (server.ts): remove the member and broadcast
`USER_LEFT` to the remaining members.  No room or history is ever deleted. -/
def handleLeaveRoom (s : ServerState) (c : Conn) (pl : Option RawPayload)
    (requestId : Option String) : ServerState × List Send :=
  match c.userId with
  | none => (s, sendTo c (.errorEv "UNAUTHORIZED" "Not authenticated" requestId))
  | some uid =>
    match pl with
    | none => (s, [])   -- async handler: destructuring throws, unhandled rejection
    | some p =>
      let user := smFind s.users uid
      let room := p.roomId.bind (fun r => smFind s.rooms r)
      match user, p.roomId, room with
      | some user, some roomId, some room =>
        if room.members.contains uid then
          let room' := { room with members := room.members.erase uid }
          let s' := { s with rooms := smSet s.rooms roomId room' }
          (s', broadcastToRoom s' roomId none (.userLeft user.id user.username roomId))
        else
          (s, sendTo c (.errorEv "NOT_A_MEMBER" "You are not a member of this room" requestId))
      | _, _, _ => (s, sendTo c (.errorEv "INVALID_ROOM" "Room not found" requestId))

/-- The `newMessage` object literal of `handleChatMessage`: uuid id, the
sender's identity, the payload's content stored as received, server receive
time, and `type || 'text'` (truthiness default). -/
def mkNewMessage (s : ServerState) (user : User) (roomId : String) (p : RawPayload) : Message :=
  { id := uuid s.nextId, roomId := roomId, userId := user.id,
    username := user.username, content := p.content, timestamp := s.now,
    mtype := match p.mtype with
             | some t => if t = "" then "text" else t   -- `type || 'text'`
             | none => "text" }

/-- `ChatServer.handleChatMessage` (synchronous): validate auth/room/membership,
append the message to the capped history, broadcast `NEW_MESSAGE` to the room
excluding the sending socket.  The payload is a cast, never schema-checked, so
`content` is stored exactly as received.  A missing payload object makes the
synchronous destructuring throw into `handleMessage`'s catch, which runs
`handleError` (INTERNAL_ERROR + terminate). -/
def handleChatMessage (s : ServerState) (c : Conn) (pl : Option RawPayload)
    (requestId : Option String) : ServerState × List Send :=
  match c.userId with
  | none => (s, sendTo c (.errorEv "UNAUTHORIZED" "Not authenticated" requestId))
  | some uid =>
    match pl with
    | none =>
      -- synchronous TypeError caught by handleMessage → handleError
      (if c.isOpen then
        ({ s with clients := updateConn s.clients c.id (fun c' => { c' with isOpen := false }) },
         [⟨c.id, .errorEv "INTERNAL_ERROR" "An internal error occurred" none⟩])
      else (s, []))
    | some p =>
      let user := smFind s.users uid
      let room := p.roomId.bind (fun r => smFind s.rooms r)
      match user, p.roomId, room with
      | some user, some roomId, some room =>
        if room.members.contains uid then
          let newMessage : Message := mkNewMessage s user roomId p
          let roomMessages := (smFind s.messageHistory roomId).getD []
          let s' := { s with
            messageHistory := smSet s.messageHistory roomId (appendCapped roomMessages newMessage),
            nextId := s.nextId + 1 }
          (s', broadcastToRoom s' roomId (some c.id) (.newMessage newMessage requestId))
        else
          (s, sendTo c (.errorEv "NOT_A_MEMBER" "You are not a member of this room" requestId))
      | _, _, _ => (s, sendTo c (.errorEv "INVALID_ROOM" "Room not found" requestId))

/-- `ChatServer.handleTypingStatus`: silently ignore unauthenticated senders
and non-members (`if (!ws.userId) return;` — no error frame), update the
per-room typing set, broadcast `TYPING_UPDATE` excluding the sending socket.
`if (isTyping)` is a truthiness test, so an absent flag acts as `false`. -/
def handleTypingStatus (s : ServerState) (c : Conn) (pl : Option RawPayload) :
    ServerState × List Send :=
  match c.userId with
  | none => (s, [])
  | some uid =>
    match pl with
    | none => (s, [])   -- async handler: destructuring throws, unhandled rejection
    | some p =>
      let user := smFind s.users uid
      let room := p.roomId.bind (fun r => smFind s.rooms r)
      match user, p.roomId, room with
      | some user, some roomId, some room =>
        if room.members.contains uid then
          let isTyping := p.isTyping.getD false
          let typing' :=
            if isTyping then
              let ts := (smFind s.typingUsers roomId).getD []
              smSet s.typingUsers roomId (if ts.contains uid then ts else ts ++ [uid])
            else
              match smFind s.typingUsers roomId with
              | none => s.typingUsers
              | some ts =>
                let ts' := ts.erase uid
                if ts'.isEmpty then smErase s.typingUsers roomId
                else smSet s.typingUsers roomId ts'
          let s' := { s with typingUsers := typing' }
          (s', broadcastToRoom s' roomId (some c.id)
            (.typingUpdate roomId user.id user.username isTyping))
        else (s, [])
      | _, _, _ => (s, [])

/-- `ChatServer.handleDisconnect`: drop the socket from the client map; if it
was authenticated and no other client entry carries the same `userId`, flip
the user offline (updating `lastSeen`) and broadcast
`USER_STATUS_CHANGED{offline}` to the user's rooms. -/
def handleDisconnect (s : ServerState) (c : Conn) : ServerState × List Send :=
  let clients' := s.clients.filter (fun cl => cl.id != c.id)
  match c.userId with
  | none => ({ s with clients := clients' }, [])
  | some uid =>
    match smFind s.users uid with
    | none => ({ s with clients := clients' }, [])
    | some user =>
      let hasOther := clients'.any (fun cl => cl.userId == some uid && cl.id != c.id)
      if hasOther then
        ({ s with clients := clients' }, [])
      else
        let users' := smSet s.users uid { user with status := "offline", lastSeen := s.now }
        let s' := { s with clients := clients', users := users' }
        (s', notifyUserStatusChange s' uid "offline")

/-- `ChatServer.handleError`: when the socket is still OPEN (or CONNECTING),
send a generic `INTERNAL_ERROR` frame and terminate it. -/
def handleError (s : ServerState) (c : Conn) : ServerState × List Send :=
  if c.isOpen then
    ({ s with clients := updateConn s.clients c.id (fun c' => { c' with isOpen := false }) },
     [⟨c.id, .errorEv "INTERNAL_ERROR" "An internal error occurred" none⟩])
  else (s, [])

/-- Outcome of `JSON.parse` + the shape checks of `parseMessage`, classifying
an inbound byte string by the validation branch it hits. -/
inductive Decoded where
  | emptyStr    -- `data.trim() === ''`
  | parseFail   -- `JSON.parse` throws
  | notObject   -- parses to null / a primitive / an array
  | noType      -- an object whose `type` is missing or not a string
  | obj (tp : String) (payload : Option RawPayload) (requestId : Option String)
  deriving Repr, DecidableEq

/-- A well-formed inbound frame as produced by `parseMessage` (the `timestamp`
defaulting is dropped: no handler reads it). -/
structure Frame where
  ftype : String
  payload : Option RawPayload
  requestId : Option String
  deriving Repr, DecidableEq

/-- JS `String.prototype.toUpperCase()` on the ASCII action names
(kernel-computable model of `message.type.toUpperCase()`). -/
def upperAscii (s : String) : String :=
  String.mk (s.data.map Char.toUpper)

/-- `ChatServer.parseMessage`: every malformed input is logged and yields
`null` — no error frame.  The `type` is uppercased; an unknown type is
deliberately let through (`// Don't throw, just return the message as-is`). -/
def parseMessage (d : Decoded) : Option Frame :=
  match d with
  | .emptyStr => none
  | .parseFail => none
  | .notObject => none
  | .noType => none
  | .obj tp pl rid => if tp = "" then none else some ⟨upperAscii tp, pl, rid⟩

/-- `rateLimiter.consume(ws.ip)` of the `RateLimiterMemory` (10 points per
second, keyed by IP): within the current window, the 11th consume rejects.
Window expiry is not modelled; every claim quantifies within one window. -/
def consume (buckets : List (String × Nat)) (key : String) :
    Bool × List (String × Nat) :=
  let used := (smFind buckets key).getD 0
  if used < RATE_LIMIT_POINTS then (true, smSet buckets key (used + 1))
  else (false, buckets)

/-- `ChatServer.handleMessage`: rate-limit (per IP), parse, dispatch.  A
rejected consume throws into the catch block, which calls `handleError`; a
parse failure returns silently; `PING` is answered `PONG` in any auth state;
`PONG` only refreshes liveness; unknown types get `UNKNOWN_MESSAGE_TYPE`. -/
def handleMessage (s : ServerState) (c : Conn) (d : Decoded) : ServerState × List Send :=
  let (ok, buckets') := consume s.rateBuckets c.ip
  let s1 := { s with rateBuckets := buckets' }
  if ok then
    match parseMessage d with
    | none => (s1, [])
    | some f =>
      if f.ftype = "AUTHENTICATE" then handleAuth s1 c f.payload f.requestId
      else if f.ftype = "JOIN_ROOM" then handleJoinRoom s1 c f.payload f.requestId
      else if f.ftype = "LEAVE_ROOM" then handleLeaveRoom s1 c f.payload f.requestId
      else if f.ftype = "SEND_MESSAGE" then handleChatMessage s1 c f.payload f.requestId
      else if f.ftype = "TYPING_STATUS" then handleTypingStatus s1 c f.payload
      else if f.ftype = "PING" then (s1, sendTo c (.pong f.requestId))
      else if f.ftype = "PONG" then (s1, [])
      else (s1, sendTo c (.errorEv "UNKNOWN_MESSAGE_TYPE"
        ("Unsupported message type: " ++ f.ftype) f.requestId))
  else
    handleError s1 c

/-- Transport-level events driving the dispatcher. -/
inductive Event where
  | connect (ip : String)
  | frame (connId : String) (d : Decoded)
  | close (connId : String)
  | sockErr (connId : String)
  deriving Repr, DecidableEq

/-- One dispatch of the server: connection accept (`wss.on('connection')`),
inbound frame, transport close, or socket error.  Events for sockets no longer
in the client list are no-ops (a terminated socket cannot emit frames; its
deferred close event has no observable effect, see `handleDisconnect`). -/
def step (s : ServerState) (e : Event) : ServerState × List Send :=
  match e with
  | .connect ip =>
    let c : Conn := { id := uuid s.nextId, userId := none, ip := ip, isOpen := true }
    ({ s with clients := s.clients ++ [c], nextId := s.nextId + 1 }, [])
  | .frame connId d =>
    match findConn s connId with
    | some c => if c.isOpen then handleMessage s c d else (s, [])
    | none => (s, [])
  | .close connId =>
    match findConn s connId with
    | some c => handleDisconnect s c
    | none => (s, [])
  | .sockErr connId =>
    match findConn s connId with
    | some c => handleError s c
    | none => (s, [])

/-- A default room of `initializeDefaultRooms`. -/
def defaultRoom (id name description : String) (now : Nat) : Room :=
  { id := id, name := name, description := description, rtype := "public",
    members := [], createdAt := now, createdBy := "system", isActive := true }

/-- The server state right after the constructor ran
`initializeDefaultRooms` ('general' and 'random', each with an empty log). -/
def initState (now : Nat) : ServerState :=
  { clients := [], users := [],
    rooms := [("general", defaultRoom "general" "General" "General discussion" now),
              ("random", defaultRoom "random" "Random" "Off-topic discussions" now)],
    typingUsers := [],
    messageHistory := [("general", []), ("random", [])],
    rateBuckets := [], nextId := 0, now := now }

/-- States the server can actually be in: the initial state and everything
produced from it by dispatching events. -/
inductive Reachable : ServerState → Prop where
  | init (now : Nat) : Reachable (initState now)
  | next (s : ServerState) (e : Event) : Reachable s → Reachable (step s e).1

/-- The stores of the broker (everything except the rate-limiter buckets and
the uuid supply): used to state "no store state changes". -/
def stores (s : ServerState) :
    List Conn × List (String × User) × List (String × Room) ×
    List (String × List String) × List (String × List Message) :=
  (s.clients, s.users, s.rooms, s.typingUsers, s.messageHistory)

/-- `ChatMessageSchema` of server.ts (zod): `roomId` a non-empty string,
`content` a non-empty string, `type` one of text/image/file (defaulted when
absent).  Declared in the source but never executed (`.parse` is never
called): the dispatcher only casts. -/
def chatPayloadValid (p : RawPayload) : Bool :=
  (match p.roomId with | some r => decide (1 ≤ r.length) | none => false)
  && (match p.content with | some ct => decide (1 ≤ ct.length) | none => false)
  && (match p.mtype with
      | some t => t == "text" || t == "image" || t == "file"
      | none => true)

/-- Run a list of transport events from a state (for concrete traces). -/
def runEvents (s : ServerState) (es : List Event) : ServerState :=
  es.foldl (fun s e => (step s e).1) s

/-! ## server.js (`websocket-server/server.js`) — the leave-room variant

Only the parts cited by the empty-room-cleanup claim are embedded: the
`async function handleLeaveRoom` of lines 221-257 together with the
effective (second) `broadcastToRoom` declaration.  Note that at runtime the
later plain `function handleLeaveRoom` (line 653) shadows this one by JS
function hoisting; the cited async variant is embedded as written. -/

/-- server.js per-client record `{userId, username, roomId?, ...}` plus the
socket's OPEN flag. -/
structure JsClientData where
  userId : String
  username : String
  roomId : Option String
  isOpen : Bool
  deriving Repr, DecidableEq

/-- The server.js store maps (`clients`, `rooms`, `messages`), keyed by a
socket id for `clients`. -/
structure JsState where
  clients : List (String × JsClientData)
  rooms : List (String × Room)
  messages : List (String × List Message)
  deriving Repr, DecidableEq

/-- server.js `broadcastToRoom` (the second, effective declaration): send to
every OPEN client whose `clientData.roomId` equals the room, except the
excluded socket. -/
def jsBroadcastToRoom (s : JsState) (roomId : String) (excludeId : Option String)
    (ev : OutEvent) : List Send :=
  match smFind s.rooms roomId with
  | none => []
  | some _ =>
    (s.clients.filter (fun p =>
      (match excludeId with | some e => p.1 != e | none => true)
      && p.2.isOpen && p.2.roomId == some roomId)).map (fun p => ⟨p.1, ev⟩)

/-- server.js `handleLeaveRoom` (lines 221-257): delete the member, broadcast
`USER_LEFT`, and — when the membership became empty — delete the room AND its
message log, with no default-room exemption.  Finally clear the client's
`roomId` and respond `ROOM_LEFT`. -/
def jsHandleLeaveRoom (s : JsState) (wsId : String) (roomId : String) (userId : String) :
    JsState × List Send :=
  match smFind s.clients wsId with
  | none => (s, [])
  | some cd =>
    match cd.roomId with
    | none => (s, [])
    | some _ =>
      let (s1, bSends) :=
        match smFind s.rooms roomId with
        | none => (s, [])
        | some room =>
          let room' := { room with members := room.members.erase userId }
          let sMid : JsState := { s with rooms := smSet s.rooms roomId room' }
          let bSends := jsBroadcastToRoom sMid roomId (some wsId)
            (.userLeft cd.userId cd.username roomId)
          if room'.members.isEmpty then
            ({ s with rooms := smErase s.rooms roomId,
                      messages := smErase s.messages roomId }, bSends)
          else
            (sMid, bSends)
      let s2 := { s1 with clients := smSet s1.clients wsId { cd with roomId := none } }
      (s2, bSends ++ [⟨wsId, .roomLeft roomId userId⟩])


/-! ## Basic lemmas about the map model and identifier supply -/

theorem uuid_injective : Function.Injective uuid := by
  intro a b h
  have hd := congrArg String.data h
  simp only [uuid] at hd
  have h2 := congrArg List.length hd
  simpa using h2

theorem userTag_injective (a b : Nat) (h : "user-" ++ uuid a = "user-" ++ uuid b) : a = b := by
  have hd := congrArg String.data h
  rw [String.data_append, String.data_append] at hd
  have h2 := List.append_cancel_left hd
  have h3 := congrArg List.length h2
  simp only [uuid] at h3
  simpa using h3

theorem smFind_smSet_self {α : Type} (m : List (String × α)) (k : String) (v : α) :
    smFind (smSet m k v) k = some v := by
  induction m with
  | nil => simp [smSet, smFind]
  | cons p t ih =>
    by_cases hp : p.1 = k
    · simp [smSet, smFind, hp]
    · simp [smSet, smFind, hp, ih]

theorem smFind_smSet_ne {α : Type} (m : List (String × α)) (k k' : String) (v : α)
    (h : k' ≠ k) : smFind (smSet m k v) k' = smFind m k' := by
  induction m with
  | nil => simp [smSet, smFind, Ne.symm h]
  | cons p t ih =>
    by_cases hp : p.1 = k
    · simp [smSet, smFind, hp, Ne.symm h]
    · by_cases hp' : p.1 = k'
      · simp [smSet, smFind, hp, hp', h]
      · simp [smSet, smFind, hp, hp', ih]

theorem smFind_smErase_self {α : Type} (m : List (String × α)) (k : String) :
    smFind (smErase m k) k = none := by
  induction m with
  | nil => simp [smErase, smFind]
  | cons p t ih =>
    by_cases hp : p.1 = k
    · simp [smErase, hp, ih]
    · simp [smErase, smFind, hp, ih]

theorem smFind_smErase_ne {α : Type} (m : List (String × α)) (k k' : String)
    (h : k' ≠ k) : smFind (smErase m k) k' = smFind m k' := by
  induction m with
  | nil => simp [smErase]
  | cons p t ih =>
    by_cases hp : p.1 = k
    · have hp' : p.1 ≠ k' := by rw [hp]; exact Ne.symm h
      simp [smErase, smFind, hp, hp', ih, Ne.symm h]
    · by_cases hp' : p.1 = k'
      · simp [smErase, smFind, hp, hp', h]
      · simp [smErase, smFind, hp, hp', ih]

theorem smFind_mem {α : Type} {m : List (String × α)} {k : String} {v : α}
    (h : smFind m k = some v) : (k, v) ∈ m := by
  induction m with
  | nil => simp [smFind] at h
  | cons p t ih =>
    obtain ⟨p1, p2⟩ := p
    by_cases hp : p1 = k
    · simp only [smFind, hp, if_true, Option.some_inj] at h
      subst hp
      subst h
      exact List.mem_cons_self _ _
    · simp only [smFind, hp, if_false] at h
      exact List.mem_cons_of_mem _ (ih h)

theorem smSet_forall {α : Type} {m : List (String × α)} {k : String} {v : α}
    {P : String × α → Prop} (hm : ∀ p ∈ m, P p) (hv : P (k, v)) :
    ∀ p ∈ smSet m k v, P p := by
  induction m with
  | nil => simpa [smSet] using hv
  | cons q t ih =>
    intro p hp
    by_cases hq : q.1 = k
    · simp only [smSet, hq, if_true, List.mem_cons] at hp
      rcases hp with hp | hp
      · rw [hp]; exact hv
      · exact hm p (List.mem_cons_of_mem _ hp)
    · simp only [smSet, hq, if_false, List.mem_cons] at hp
      rcases hp with hp | hp
      · rw [hp]; exact hm q (List.mem_cons_self q t)
      · exact ih (fun r hr => hm r (List.mem_cons_of_mem _ hr)) p hp

theorem smFind_isSome_smSet {α : Type} (m : List (String × α)) (k k' : String) (v : α)
    (h : (smFind m k).isSome) :
    (smFind (smSet m k v) k').isSome = (smFind m k').isSome := by
  by_cases hk : k' = k
  · subst hk
    rw [smFind_smSet_self]
    cases hm : smFind m k'
    · rw [hm] at h; simp at h
    · simp
  · rw [smFind_smSet_ne m k k' v hk]

/-! ## Shape lemmas for `broadcastToRoom` -/

theorem mem_broadcastToRoom {s : ServerState} {roomId : String} {excl : Option String}
    {ev : OutEvent} {snd : Send} :
    snd ∈ broadcastToRoom s roomId excl ev ↔
      ∃ room, smFind s.rooms roomId = some room ∧
        ∃ c ∈ s.clients, wantsBroadcast room excl c = true ∧ snd = ⟨c.id, ev⟩ := by
  unfold broadcastToRoom
  cases hr : smFind s.rooms roomId with
  | none => simp
  | some room =>
    simp only [List.mem_map, List.mem_filter, Option.some_inj]
    constructor
    · rintro ⟨c, ⟨hc, hw⟩, hsnd⟩
      exact ⟨room, rfl, c, hc, hw, hsnd.symm⟩
    · rintro ⟨room', hr', c, hc, hw, hsnd⟩
      subst hr'
      exact ⟨c, ⟨hc, hw⟩, hsnd.symm⟩

theorem wantsBroadcast_iff {room : Room} {excl : Option String} {c : Conn} :
    wantsBroadcast room excl c = true ↔
      (∀ e, excl = some e → c.id ≠ e) ∧
      (∃ u, c.userId = some u ∧ u ∈ room.members) ∧ c.isOpen = true := by
  unfold wantsBroadcast
  cases excl <;> cases hu : c.userId <;>
    simp only [Bool.and_eq_true, bne_iff_ne, List.contains_iff_exists_mem_beq,
      beq_iff_eq] <;>
    aesop

/-! ## Concrete frames and traces -/

/-- An `AUTHENTICATE` frame (the server accepts exactly `token === username`). -/
def authFrame (name : String) : Decoded :=
  .obj "AUTHENTICATE" (some { token := some name, username := some name }) none

/-- A `JOIN_ROOM` frame. -/
def joinFrame (r : String) : Decoded :=
  .obj "JOIN_ROOM" (some { roomId := some r }) none

/-- A `LEAVE_ROOM` frame. -/
def leaveFrame (r : String) : Decoded :=
  .obj "LEAVE_ROOM" (some { roomId := some r }) none

/-- A `SEND_MESSAGE` frame. -/
def chatFrame (r : String) (ct : String) : Decoded :=
  .obj "SEND_MESSAGE" (some { roomId := some r, content := some ct }) none

/-- A `TYPING_STATUS` frame. -/
def typingFrame (r : String) (b : Bool) : Decoded :=
  .obj "TYPING_STATUS" (some { roomId := some r, isTyping := some b }) none

/-- A `PING` frame. -/
def pingFrame : Decoded := .obj "PING" none none

/-- Demo trace: one socket (id `uuid 0`) authenticated as alice
(userId `"user-" ++ uuid 1`) and joined to 'general'. -/
def demoA : ServerState :=
  runEvents (initState 0)
    [.connect "ip1", .frame (uuid 0) (authFrame "alice"),
     .frame (uuid 0) (joinFrame "general")]

/-- Demo trace: `demoA` plus a second socket (id `uuid 2`) authenticated as
bob (userId `"user-" ++ uuid 3`) and joined to 'general'. -/
def demoAB : ServerState :=
  runEvents demoA
    [.connect "ip2", .frame (uuid 2) (authFrame "bob"),
     .frame (uuid 2) (joinFrame "general")]

example : (smFind demoAB.rooms "general").map Room.members =
    some ["user-" ++ uuid 1, "user-" ++ uuid 3] := by decide

example : demoAB.clients.map Conn.id = [uuid 0, uuid 2] := by decide

/-! ## C10: broadcasts only reach authenticated members -/

/-- C10: for every room broadcast, every connection that receives the event is
an open connection whose `userId` is non-null and a member of the target room
(the `broadcastToRoom` filter tests membership of each connection's `userId`,
and `room.members.has(undefined)` is false since members are user-id strings);
and membership can only be granted through an authenticated `JOIN_ROOM` — the
handler on an unauthenticated connection changes nothing and replies
`ERROR{UNAUTHORIZED}`. -/
theorem broadcast_targets_authenticated_members :
    (∀ (s : ServerState) (roomId : String) (excl : Option String) (ev : OutEvent)
        (snd : Send), snd ∈ broadcastToRoom s roomId excl ev →
      ∃ room, smFind s.rooms roomId = some room ∧
        ∃ c ∈ s.clients, c.id = snd.connId ∧ c.isOpen = true ∧
          ∃ u, c.userId = some u ∧ u ∈ room.members) ∧
    (∀ (s : ServerState) (c : Conn) (pl : Option RawPayload) (rid : Option String),
        c.userId = none →
      (handleJoinRoom s c pl rid).1 = s ∧
      (handleJoinRoom s c pl rid).2 =
        sendTo c (.errorEv "UNAUTHORIZED" "Not authenticated" rid)) := by
  constructor
  · intro s roomId excl ev snd hsnd
    rcases mem_broadcastToRoom.mp hsnd with ⟨room, hroom, c, hc, hw, hsndEq⟩
    rcases wantsBroadcast_iff.mp hw with ⟨-, ⟨u, hu, hmem⟩, ho⟩
    exact ⟨room, hroom, c, hc, by rw [hsndEq], ho, u, hu, hmem⟩
  · intro s c pl rid hnone
    simp [handleJoinRoom, hnone]

/-- Concrete instance of `broadcast_targets_authenticated_members`. -/
def w10room : Room :=
  { id := "general", name := "General", description := "", rtype := "public",
    members := ["u1"], createdAt := 0, createdBy := "system", isActive := true }

/-- An open, authenticated connection for the C10 instance. -/
def w10conn : Conn := { id := "c1", userId := some "u1", ip := "ip", isOpen := true }

/-- An unauthenticated connection for the C10 instance. -/
def w10unauth : Conn := { id := "c9", userId := none, ip := "ip", isOpen := true }

/-- A one-room, one-client state for the C10 instance. -/
def w10state : ServerState :=
  { clients := [w10conn, w10unauth], users := [], rooms := [("general", w10room)],
    typingUsers := [], messageHistory := [], rateBuckets := [], nextId := 0, now := 0 }

theorem broadcast_targets_authenticated_members_witness :
    (Send.mk "c1" (.pong none) ∈ broadcastToRoom w10state "general" none (.pong none)) ∧
    (∃ room, smFind w10state.rooms "general" = some room ∧
      ∃ c ∈ w10state.clients, c.id = (Send.mk "c1" (.pong none)).connId ∧ c.isOpen = true ∧
        ∃ u, c.userId = some u ∧ u ∈ room.members) ∧
    ((handleJoinRoom w10state w10unauth none none).1 = w10state ∧
      (handleJoinRoom w10state w10unauth none none).2 =
        sendTo w10unauth (.errorEv "UNAUTHORIZED" "Not authenticated" none)) :=
  ⟨by decide,
   broadcast_targets_authenticated_members.1 w10state "general" none (.pong none) _ (by decide),
   broadcast_targets_authenticated_members.2 w10state w10unauth none none rfl⟩

/-! ## C3: the per-room log is bounded, FIFO-evicted -/

theorem foldl_appendCapped (t : List Message) (acc : List Message)
    (h : acc.length ≤ MAX_MESSAGES_PER_ROOM) :
    t.foldl appendCapped acc =
      (acc ++ t).drop ((acc ++ t).length - MAX_MESSAGES_PER_ROOM) := by
  have hM : MAX_MESSAGES_PER_ROOM = 1000 := rfl
  induction t generalizing acc with
  | nil => simp [Nat.sub_eq_zero_of_le h]
  | cons m t ih =>
    rw [List.foldl_cons]
    by_cases hlen : acc.length < MAX_MESSAGES_PER_ROOM
    · have hnot : ¬ MAX_MESSAGES_PER_ROOM < (acc ++ [m]).length := by
        simp only [List.length_append, List.length_singleton]
        omega
      have hcap : appendCapped acc m = acc ++ [m] := by
        unfold appendCapped
        rw [if_neg hnot]
      rw [hcap, ih (acc ++ [m])
        (by simp only [List.length_append, List.length_singleton]; omega)]
      simp [List.append_assoc]
    · have hed : acc.length = MAX_MESSAGES_PER_ROOM :=
        Nat.le_antisymm h (Nat.le_of_not_lt hlen)
      have h1 : MAX_MESSAGES_PER_ROOM < (acc ++ [m]).length := by
        simp only [List.length_append, List.length_singleton]
        omega
      have h2 : (acc ++ [m]).length - MAX_MESSAGES_PER_ROOM = 1 := by
        simp only [List.length_append, List.length_singleton]
        omega
      have hcap : appendCapped acc m = (acc ++ [m]).drop 1 := by
        unfold appendCapped
        rw [if_pos h1, h2]
      have hdroplen : ((acc ++ [m]).drop 1).length ≤ MAX_MESSAGES_PER_ROOM := by
        simp only [List.length_drop, List.length_append, List.length_singleton]
        omega
      rw [hcap, ih _ hdroplen]
      have hone : (1 : Nat) ≤ acc.length := by omega
      have hd : (acc ++ [m]).drop 1 ++ t = (acc ++ (m :: t)).drop 1 := by
        rw [List.drop_append_of_le_length hone, List.drop_append_of_le_length hone]
        simp
      rw [hd, List.drop_drop]
      congr 1
      have hL : ((acc ++ m :: t).drop 1).length = (acc ++ m :: t).length - 1 :=
        List.length_drop 1 _
      have hB : (acc ++ m :: t).length = acc.length + (t.length + 1) := by simp
      omega

/-- C3: appending `MAX_MESSAGES_PER_ROOM + k` messages through the
history-append step of `handleChatMessage` leaves exactly the last
`MAX_MESSAGES_PER_ROOM` messages — the oldest `k` evicted first, survivors in
append order — and the `messages.slice(-100)` replayed by `handleJoinRoom` is
a suffix of that log (so also in append order). -/
theorem bounded_log_evicts_oldest (msgs : List Message) (k : Nat)
    (h : msgs.length = MAX_MESSAGES_PER_ROOM + k) :
    msgs.foldl appendCapped [] = msgs.drop k ∧
    (msgs.foldl appendCapped []).length = MAX_MESSAGES_PER_ROOM ∧
    sliceLast 100 (msgs.foldl appendCapped []) <:+ msgs.foldl appendCapped [] := by
  have h0 : ([] : List Message).length ≤ MAX_MESSAGES_PER_ROOM := by simp
  have hf := foldl_appendCapped msgs [] h0
  simp only [List.nil_append] at hf
  have hk : msgs.length - MAX_MESSAGES_PER_ROOM = k := by omega
  rw [hf, hk]
  refine ⟨rfl, ?_, ?_⟩
  · rw [List.length_drop]
    omega
  · unfold sliceLast
    exact List.drop_suffix _ _

/-- A message to replicate for the C3 instance. -/
def w3msg : Message :=
  { id := "m", roomId := "general", userId := "u", username := "alice",
    content := some "hi", timestamp := 0, mtype := "text" }

theorem bounded_log_evicts_oldest_witness :
    (List.replicate (MAX_MESSAGES_PER_ROOM + 1) w3msg).length =
        MAX_MESSAGES_PER_ROOM + 1 ∧
    ((List.replicate (MAX_MESSAGES_PER_ROOM + 1) w3msg).foldl appendCapped [] =
        (List.replicate (MAX_MESSAGES_PER_ROOM + 1) w3msg).drop 1 ∧
      ((List.replicate (MAX_MESSAGES_PER_ROOM + 1) w3msg).foldl appendCapped []).length =
        MAX_MESSAGES_PER_ROOM ∧
      sliceLast 100 ((List.replicate (MAX_MESSAGES_PER_ROOM + 1) w3msg).foldl appendCapped []) <:+
        (List.replicate (MAX_MESSAGES_PER_ROOM + 1) w3msg).foldl appendCapped []) :=
  ⟨by simp, bounded_log_evicts_oldest _ 1 (by simp)⟩

/-! ## C4: room lifecycle on leave -/

theorem leave_room_ts_preserves (s : ServerState) (c : Conn) (pl : Option RawPayload)
    (rid : Option String) :
    (handleLeaveRoom s c pl rid).1.messageHistory = s.messageHistory ∧
    ∀ r, ((smFind (handleLeaveRoom s c pl rid).1.rooms r).isSome ↔
      (smFind s.rooms r).isSome) := by
  unfold handleLeaveRoom
  split
  · exact ⟨rfl, fun r => Iff.rfl⟩
  · split
    · exact ⟨rfl, fun r => Iff.rfl⟩
    · dsimp only
      split
      · split
        · rename_i user roomId room huser hrid hroom hmem
          refine ⟨rfl, fun r => ?_⟩
          have hfind : smFind s.rooms roomId = some room := by
            rw [hrid] at hroom
            simpa using hroom
          have hsome : (smFind s.rooms roomId).isSome := by rw [hfind]; rfl
          rw [smFind_isSome_smSet s.rooms roomId r _ hsome]
        · exact ⟨rfl, fun r => Iff.rfl⟩
      · exact ⟨rfl, fun r => Iff.rfl⟩

theorem leave_room_js_deletes (s : JsState) (wsId roomId userId : String)
    (cd : JsClientData) (room : Room)
    (hcd : smFind s.clients wsId = some cd) (hin : cd.roomId.isSome = true)
    (hroom : smFind s.rooms roomId = some room)
    (hemp : room.members.erase userId = []) :
    smFind (jsHandleLeaveRoom s wsId roomId userId).1.rooms roomId = none ∧
    smFind (jsHandleLeaveRoom s wsId roomId userId).1.messages roomId = none := by
  unfold jsHandleLeaveRoom
  rw [hcd]
  dsimp only
  rcases hcdr : cd.roomId with _ | r
  · rw [hcdr] at hin
    simp at hin
  · dsimp only
    rw [hroom]
    dsimp only
    simp only [hemp, List.isEmpty_nil, if_true]
    exact ⟨smFind_smErase_self _ _, smFind_smErase_self _ _⟩

/-- C4 (amended): in server.ts, `handleLeaveRoom` never deletes any room or
any message history — after the last member leaves, the room still exists and
its log is intact, for default and non-default rooms alike.  By contrast the
cited server.js `handleLeaveRoom` (lines 221-257) deletes any room whose
membership empties, together with its message log, with no default-room
exemption. -/
theorem leave_room_never_deletes :
    (∀ (s : ServerState) (c : Conn) (pl : Option RawPayload) (rid : Option String),
      (handleLeaveRoom s c pl rid).1.messageHistory = s.messageHistory ∧
      ∀ r, ((smFind (handleLeaveRoom s c pl rid).1.rooms r).isSome ↔
        (smFind s.rooms r).isSome)) ∧
    (∀ (s : JsState) (wsId roomId userId : String) (cd : JsClientData) (room : Room),
      smFind s.clients wsId = some cd → cd.roomId.isSome = true →
      smFind s.rooms roomId = some room → room.members.erase userId = [] →
      smFind (jsHandleLeaveRoom s wsId roomId userId).1.rooms roomId = none ∧
      smFind (jsHandleLeaveRoom s wsId roomId userId).1.messages roomId = none) :=
  ⟨leave_room_ts_preserves, leave_room_js_deletes⟩

/-- server.js client record for the C4 instance. -/
def w4cd : JsClientData :=
  { userId := "u1", username := "alice", roomId := some "general", isOpen := true }

/-- server.js room for the C4 instance (the would-be default room 'general'). -/
def w4room : Room :=
  { id := "general", name := "General", description := "", rtype := "public",
    members := ["u1"], createdAt := 0, createdBy := "system", isActive := true }

/-- server.js state for the C4 instance. -/
def w4js : JsState :=
  { clients := [("c1", w4cd)], rooms := [("general", w4room)],
    messages := [("general", [w3msg])] }

theorem leave_room_never_deletes_witness :
    (smFind w4js.clients "c1" = some w4cd ∧ w4cd.roomId.isSome = true ∧
      smFind w4js.rooms "general" = some w4room ∧ w4room.members.erase "u1" = []) ∧
    (smFind (jsHandleLeaveRoom w4js "c1" "general" "u1").1.rooms "general" = none ∧
      smFind (jsHandleLeaveRoom w4js "c1" "general" "u1").1.messages "general" = none) :=
  ⟨⟨by decide, by decide, by decide, by decide⟩,
   leave_room_never_deletes.2 w4js "c1" "general" "u1" w4cd w4room
     (by decide) (by decide) (by decide) (by decide)⟩

/-- Trace for the C4 counterexample: alice authenticates, joins the
non-default room "r1", sends one message there, then leaves ("r1" now has no
members). -/
def demoLeave : ServerState :=
  runEvents (initState 0)
    [.connect "ip1", .frame (uuid 0) (authFrame "alice"),
     .frame (uuid 0) (joinFrame "r1"), .frame (uuid 0) (chatFrame "r1" "hello"),
     .frame (uuid 0) (leaveFrame "r1")]

/-- C4 counterexample: after the last member left the non-default room "r1",
server.ts still reports the room as existing (with empty membership), its
one-message history is retained, and a re-join replays that old message
instead of starting empty. -/
theorem leave_room_persists_counterexample :
    (smFind demoLeave.rooms "r1").map Room.members = some [] ∧
    (smFind demoLeave.messageHistory "r1").map List.length = some 1 ∧
    (step demoLeave (.frame (uuid 0) (joinFrame "r1"))).2.any
      (fun snd => match snd.event with
        | .roomJoined _ msgs _ _ => msgs.length == 1
        | _ => false) = true := by decide

/-! ## C7: malformed frames -/

/-- C7 (amended): a malformed frame (empty data, JSON parse failure,
non-object, or missing/non-string `type`) is logged and silently discarded:
`parseMessage` returns null and `handleMessage` sends nothing — there is no
`ERROR{INVALID_MESSAGE}` emission in the code.  The connection is not closed,
the process does not crash, and no store state changes (only the rate-limiter
bucket ticks). -/
theorem malformed_frame_silently_dropped (s : ServerState) (c : Conn) (d : Decoded)
    (hmal : parseMessage d = none)
    (hrate : (smFind s.rateBuckets c.ip).getD 0 < RATE_LIMIT_POINTS) :
    (handleMessage s c d).2 = [] ∧
    stores (handleMessage s c d).1 = stores s := by
  unfold handleMessage consume
  rw [if_pos hrate]
  dsimp only
  rw [hmal]
  exact ⟨rfl, rfl⟩

theorem malformed_frame_silently_dropped_witness :
    (parseMessage .parseFail = none ∧
      (smFind w10state.rateBuckets w10conn.ip).getD 0 < RATE_LIMIT_POINTS) ∧
    ((handleMessage w10state w10conn .parseFail).2 = [] ∧
      stores (handleMessage w10state w10conn .parseFail).1 = stores w10state) :=
  ⟨⟨rfl, by decide⟩,
   malformed_frame_silently_dropped w10state w10conn .parseFail rfl (by decide)⟩

/-- C7 counterexample: a freshly connected socket sends unparseable bytes; the
dispatcher emits NOTHING (in particular no `ERROR{code: INVALID_MESSAGE}`
frame, contradicting the claim), and the connection remains open. -/
theorem malformed_frame_counterexample :
    (step (runEvents (initState 0) [.connect "ip1"]) (.frame (uuid 0) .parseFail)).2 = [] ∧
    (step (runEvents (initState 0) [.connect "ip1"])
        (.frame (uuid 0) .parseFail)).1.clients =
      [{ id := uuid 0, userId := none, ip := "ip1", isOpen := true }] := by decide

/-! ## C2: frames on an unauthenticated connection -/

/-- C2 (amended): on a connection that has not authenticated, `JOIN_ROOM`,
`LEAVE_ROOM` and `SEND_MESSAGE` are each rejected with
`ERROR{code: UNAUTHORIZED}` and no store change; but `TYPING_STATUS` is
silently discarded with NO error frame (`if (!ws.userId) return;`), and `PING`
is answered with `PONG` regardless of authentication state. -/
theorem unauthenticated_frame_handling :
    (∀ (s : ServerState) (c : Conn) (pl : Option RawPayload) (rid : Option String),
      c.userId = none →
      handleJoinRoom s c pl rid =
        (s, sendTo c (.errorEv "UNAUTHORIZED" "Not authenticated" rid)) ∧
      handleLeaveRoom s c pl rid =
        (s, sendTo c (.errorEv "UNAUTHORIZED" "Not authenticated" rid)) ∧
      handleChatMessage s c pl rid =
        (s, sendTo c (.errorEv "UNAUTHORIZED" "Not authenticated" rid)) ∧
      handleTypingStatus s c pl = (s, [])) ∧
    (∀ (s : ServerState) (c : Conn) (pl : Option RawPayload) (rid : Option String),
      (smFind s.rateBuckets c.ip).getD 0 < RATE_LIMIT_POINTS →
      (handleMessage s c (.obj "PING" pl rid)).2 = sendTo c (.pong rid) ∧
      stores (handleMessage s c (.obj "PING" pl rid)).1 = stores s) := by
  constructor
  · intro s c pl rid hnone
    refine ⟨?_, ?_, ?_, ?_⟩ <;>
      simp [handleJoinRoom, handleLeaveRoom, handleChatMessage, handleTypingStatus, hnone]
  · intro s c pl rid hrate
    have hup : upperAscii "PING" = "PING" := by decide
    have hping : parseMessage (.obj "PING" pl rid) = some ⟨"PING", pl, rid⟩ := by
      simp [parseMessage, hup]
    unfold handleMessage consume
    rw [if_pos hrate]
    dsimp only
    rw [if_pos rfl, hping]
    dsimp only
    rw [if_neg (by decide), if_neg (by decide), if_neg (by decide), if_neg (by decide),
      if_neg (by decide), if_pos rfl]
    exact ⟨rfl, rfl⟩

theorem unauthenticated_frame_handling_witness :
    (w10unauth.userId = none ∧
      (handleTypingStatus w10state w10unauth (some { roomId := some "general" }) =
        (w10state, []))) ∧
    ((smFind w10state.rateBuckets w10unauth.ip).getD 0 < RATE_LIMIT_POINTS ∧
      (handleMessage w10state w10unauth (.obj "PING" none none)).2 =
        sendTo w10unauth (.pong none)) :=
  ⟨⟨rfl, (unauthenticated_frame_handling.1 w10state w10unauth
      (some { roomId := some "general" }) none rfl).2.2.2⟩,
   ⟨by decide, (unauthenticated_frame_handling.2 w10state w10unauth none none (by decide)).1⟩⟩

/-- C2 counterexample: an unauthenticated connection sends `TYPING_STATUS` —
the server emits NOTHING (no `ERROR{UNAUTHORIZED}`), and the same connection's
`PING` is answered `PONG` instead of `ERROR{UNAUTHORIZED}`. -/
theorem unauthenticated_typing_counterexample :
    (step (runEvents (initState 0) [.connect "ip1"])
        (.frame (uuid 0) (typingFrame "general" true))).2 = [] ∧
    (step (runEvents (initState 0) [.connect "ip1"])
        (.frame (uuid 0) pingFrame)).2 = [⟨uuid 0, .pong none⟩] := by decide

/-! ## C6: rate limiting -/

/-- C6 (amended): the limiter is keyed by the connection's IP (not by
connection), with 10 points per second; a frame arriving with the bucket
exhausted is routed to `handleError`, which replies
`ERROR{code: INTERNAL_ERROR}` (not `RATE_LIMIT_EXCEEDED`) and TERMINATES the
connection; no handler runs and no store changes except the closed socket. -/
theorem rate_limited_frame_internal_error (s : ServerState) (c : Conn) (d : Decoded)
    (hrate : ¬ (smFind s.rateBuckets c.ip).getD 0 < RATE_LIMIT_POINTS)
    (hopen : c.isOpen = true) :
    (handleMessage s c d).2 =
      [⟨c.id, .errorEv "INTERNAL_ERROR" "An internal error occurred" none⟩] ∧
    (handleMessage s c d).1.users = s.users ∧
    (handleMessage s c d).1.rooms = s.rooms ∧
    (handleMessage s c d).1.typingUsers = s.typingUsers ∧
    (handleMessage s c d).1.messageHistory = s.messageHistory ∧
    (handleMessage s c d).1.clients =
      updateConn s.clients c.id (fun c' => { c' with isOpen := false }) := by
  unfold handleMessage consume
  rw [if_neg hrate]
  dsimp only
  unfold handleError
  rw [if_pos hopen]
  exact ⟨rfl, rfl, rfl, rfl, rfl, rfl⟩

/-- A state whose bucket for "ip" is exhausted, for the C6 instance. -/
def w6state : ServerState :=
  { clients := [w10conn], users := [], rooms := [], typingUsers := [],
    messageHistory := [], rateBuckets := [("ip", 10)], nextId := 0, now := 0 }

theorem rate_limited_frame_internal_error_witness :
    (¬ (smFind w6state.rateBuckets w10conn.ip).getD 0 < RATE_LIMIT_POINTS ∧
      w10conn.isOpen = true) ∧
    ((handleMessage w6state w10conn pingFrame).2 =
      [⟨w10conn.id, .errorEv "INTERNAL_ERROR" "An internal error occurred" none⟩]) :=
  ⟨⟨by decide, rfl⟩,
   (rate_limited_frame_internal_error w6state w10conn pingFrame (by decide) rfl).1⟩

/-- Trace for the C6 counterexample: two sockets share one IP; the first
socket sends 10 `PING`s in the window. -/
def demoRate : ServerState :=
  runEvents (initState 0)
    ([.connect "ip1", .connect "ip1"] ++ List.replicate 10 (.frame (uuid 0) pingFrame))

/-- C6 counterexample: the second socket's very FIRST frame is rejected
(because the limiter counts per IP, not per connection), with error code
`INTERNAL_ERROR` rather than `RATE_LIMIT_EXCEEDED`, and its connection is
terminated rather than staying open. -/
theorem rate_limit_counterexample :
    (step demoRate (.frame (uuid 1) pingFrame)).2 =
      [⟨uuid 1, .errorEv "INTERNAL_ERROR" "An internal error occurred" none⟩] ∧
    (findConn (step demoRate (.frame (uuid 1) pingFrame)).1 (uuid 1)).map Conn.isOpen =
      some false := by decide

/-! ## C1 / C8: the SEND_MESSAGE path -/

theorem handleChatMessage_happy (s : ServerState) (c : Conn) (p : RawPayload)
    (rid : Option String) (uid : String) (user : User) (roomId : String) (room : Room)
    (huid : c.userId = some uid) (huser : smFind s.users uid = some user)
    (hrid : p.roomId = some roomId) (hroom : smFind s.rooms roomId = some room)
    (hmem : room.members.contains uid = true) :
    handleChatMessage s c (some p) rid =
      (let s' := { s with
        messageHistory := smSet s.messageHistory roomId
          (appendCapped ((smFind s.messageHistory roomId).getD [])
            (mkNewMessage s user roomId p)),
        nextId := s.nextId + 1 };
      (s', broadcastToRoom s' roomId (some c.id)
        (.newMessage (mkNewMessage s user roomId p) rid))) := by
  unfold handleChatMessage
  rw [huid]
  dsimp only
  rw [huser, hrid]
  dsimp only [Option.bind]
  rw [hroom]
  dsimp only
  rw [if_pos hmem]

/-- C1 (amended): for a SEND_MESSAGE accepted from an authenticated member,
the resulting `NEW_MESSAGE` is broadcast to every OTHER open connection whose
user is a room member, but NEVER to the sending socket itself —
`handleChatMessage` passes `ws` as `broadcastToRoom`'s exclusion, so the
sender gets no echo and no send confirmation. -/
theorem sendMessage_broadcast_excludes_sender (s : ServerState) (c : Conn)
    (p : RawPayload) (rid : Option String) (uid : String) (user : User)
    (roomId : String) (room : Room)
    (huid : c.userId = some uid) (huser : smFind s.users uid = some user)
    (hrid : p.roomId = some roomId) (hroom : smFind s.rooms roomId = some room)
    (hmem : room.members.contains uid = true) :
    (∀ snd ∈ (handleChatMessage s c (some p) rid).2, snd.connId ≠ c.id) ∧
    (∀ c' ∈ s.clients, c'.id ≠ c.id → c'.isOpen = true →
      ∀ u, c'.userId = some u → u ∈ room.members →
      ∃ m : Message,
        Send.mk c'.id (.newMessage m rid) ∈ (handleChatMessage s c (some p) rid).2 ∧
        m.content = p.content ∧ m.userId = user.id) := by
  rw [handleChatMessage_happy s c p rid uid user roomId room huid huser hrid hroom hmem]
  dsimp only
  constructor
  · intro snd hsnd
    rcases mem_broadcastToRoom.mp hsnd with ⟨room', hroom', c'', hc'', hw, hsndEq⟩
    rcases wantsBroadcast_iff.mp hw with ⟨hne, -, -⟩
    rw [hsndEq]
    exact hne c.id rfl
  · intro c' hc' hne ho u hu hum
    refine ⟨mkNewMessage s user roomId p, ?_, rfl, rfl⟩
    apply mem_broadcastToRoom.mpr
    refine ⟨room, ?_, c', hc', ?_, rfl⟩
    · exact hroom
    · apply wantsBroadcast_iff.mpr
      exact ⟨fun e he => by cases he; exact hne, ⟨u, hu, hum⟩, ho⟩

/-- Alice's socket in `demoA`/`demoAB`. -/
def wAliceConn : Conn :=
  { id := uuid 0, userId := some ("user-" ++ uuid 1), ip := "ip1", isOpen := true }

/-- Alice's user record in `demoA`/`demoAB`. -/
def wAlice : User :=
  { id := "user-" ++ uuid 1, username := "alice", status := "online",
    lastSeen := 0, token := "alice", ip := "ip1" }

/-- The 'general' room record in `demoAB` (alice and bob joined). -/
def wGeneralAB : Room :=
  { id := "general", name := "General", description := "General discussion",
    rtype := "public", members := ["user-" ++ uuid 1, "user-" ++ uuid 3],
    createdAt := 0, createdBy := "system", isActive := true }

/-- The 'general' room record in `demoA` (only alice joined). -/
def wGeneralA : Room :=
  { id := "general", name := "General", description := "General discussion",
    rtype := "public", members := ["user-" ++ uuid 1],
    createdAt := 0, createdBy := "system", isActive := true }

/-- A SEND_MESSAGE payload "hi" to 'general'. -/
def wChatPayload : RawPayload := { roomId := some "general", content := some "hi" }

theorem sendMessage_broadcast_excludes_sender_witness :
    (wAliceConn.userId = some ("user-" ++ uuid 1) ∧
      smFind demoAB.users ("user-" ++ uuid 1) = some wAlice ∧
      wChatPayload.roomId = some "general" ∧
      smFind demoAB.rooms "general" = some wGeneralAB ∧
      wGeneralAB.members.contains ("user-" ++ uuid 1) = true) ∧
    ((∀ snd ∈ (handleChatMessage demoAB wAliceConn (some wChatPayload) none).2,
        snd.connId ≠ wAliceConn.id) ∧
      (∀ c' ∈ demoAB.clients, c'.id ≠ wAliceConn.id → c'.isOpen = true →
        ∀ u, c'.userId = some u → u ∈ wGeneralAB.members →
        ∃ m : Message,
          Send.mk c'.id (.newMessage m none) ∈
            (handleChatMessage demoAB wAliceConn (some wChatPayload) none).2 ∧
          m.content = wChatPayload.content ∧ m.userId = wAlice.id)) :=
  ⟨⟨rfl, by decide, rfl, by decide, by decide⟩,
   sendMessage_broadcast_excludes_sender demoAB wAliceConn wChatPayload none
     ("user-" ++ uuid 1) wAlice "general" wGeneralAB rfl (by decide) rfl
     (by decide) (by decide)⟩

/-- C1 counterexample: alice and bob are both members of 'general' with open
sockets; alice sends "hi".  Bob's socket receives `NEW_MESSAGE{content:"hi"}`
but alice's own socket receives NOTHING — there is no echo to use as a send
confirmation, contradicting the claim that the sender receives the same
`NEW_MESSAGE` broadcast. -/
theorem sendMessage_echo_counterexample :
    ((step demoAB (.frame (uuid 0) (chatFrame "general" "hi"))).2.all
      (fun snd => snd.connId != uuid 0)) = true ∧
    ((step demoAB (.frame (uuid 0) (chatFrame "general" "hi"))).2.any
      (fun snd => snd.connId == uuid 2 &&
        match snd.event with
        | .newMessage m _ => m.content == some "hi"
        | _ => false)) = true := by decide

/-- C8 (amended): payload schemas are declared (`ChatMessageSchema` etc.) but
never executed — the dispatcher casts the frame and the handler runs on the
raw payload.  In particular a SEND_MESSAGE whose payload fails the declared
schema (e.g. empty `content`) is still appended to the history and broadcast;
it is not rejected as an InvalidMessage and the handler is not prevented from
executing. -/
theorem send_message_schema_not_enforced (s : ServerState) (c : Conn)
    (p : RawPayload) (rid : Option String) (uid : String) (user : User)
    (roomId : String) (room : Room)
    (huid : c.userId = some uid) (huser : smFind s.users uid = some user)
    (hrid : p.roomId = some roomId) (hroom : smFind s.rooms roomId = some room)
    (hmem : room.members.contains uid = true)
    (hbad : chatPayloadValid p = false) :
    (handleChatMessage s c (some p) rid).1.messageHistory =
      smSet s.messageHistory roomId
        (appendCapped ((smFind s.messageHistory roomId).getD [])
          (mkNewMessage s user roomId p)) ∧
    (mkNewMessage s user roomId p).content = p.content ∧
    (handleChatMessage s c (some p) rid).2 =
      broadcastToRoom (handleChatMessage s c (some p) rid).1 roomId (some c.id)
        (.newMessage (mkNewMessage s user roomId p) rid) := by
  rw [handleChatMessage_happy s c p rid uid user roomId room huid huser hrid hroom hmem]
  exact ⟨rfl, rfl, rfl⟩

/-- The schema-invalid payload (empty content) for the C8 instance. -/
def wEmptyPayload : RawPayload := { roomId := some "general", content := some "" }

theorem send_message_schema_not_enforced_witness :
    (wAliceConn.userId = some ("user-" ++ uuid 1) ∧
      smFind demoA.users ("user-" ++ uuid 1) = some wAlice ∧
      wEmptyPayload.roomId = some "general" ∧
      smFind demoA.rooms "general" = some wGeneralA ∧
      wGeneralA.members.contains ("user-" ++ uuid 1) = true ∧
      chatPayloadValid wEmptyPayload = false) ∧
    ((handleChatMessage demoA wAliceConn (some wEmptyPayload) none).1.messageHistory =
      smSet demoA.messageHistory "general"
        (appendCapped ((smFind demoA.messageHistory "general").getD [])
          (mkNewMessage demoA wAlice "general" wEmptyPayload)) ∧
      (mkNewMessage demoA wAlice "general" wEmptyPayload).content =
        wEmptyPayload.content ∧
      (handleChatMessage demoA wAliceConn (some wEmptyPayload) none).2 =
        broadcastToRoom (handleChatMessage demoA wAliceConn (some wEmptyPayload) none).1
          "general" (some wAliceConn.id)
          (.newMessage (mkNewMessage demoA wAlice "general" wEmptyPayload) none)) :=
  ⟨⟨rfl, by decide, rfl, by decide, by decide, by decide⟩,
   send_message_schema_not_enforced demoA wAliceConn wEmptyPayload none
     ("user-" ++ uuid 1) wAlice "general" wGeneralA rfl (by decide) rfl
     (by decide) (by decide) (by decide)⟩

/-- C8 counterexample: a SEND_MESSAGE with empty `content` — which the
declared `ChatMessageSchema` (`content: z.string().min(1)`) rejects — is
nevertheless processed: the handler runs and the empty-content message is
appended to 'general''s history, so the frame was not rejected before the
handler and store state did change. -/
theorem schema_not_enforced_counterexample :
    chatPayloadValid wEmptyPayload = false ∧
    (smFind (step demoA (.frame (uuid 0) (chatFrame "general" ""))).1.messageHistory
        "general").map (List.map Message.content) = some [some ""] := by decide

/-! ## C5: one connection per user; offline on last disconnect -/

theorem handleAuth_existing_shape (s : ServerState) (c : Conn) (p : RawPayload)
    (rid : Option String) (t : String) (u : User)
    (htok : p.token = some t) (hname : p.username = some t) (ht : t ≠ "")
    (hfind : (s.users.map (fun q => q.2)).find? (fun u' => u'.username == t) = some u) :
    (handleAuth s c (some p) rid).1.clients =
      updateConn (s.clients.filter
        (fun cl => !(cl.userId == some u.id && cl.id != c.id))) c.id
        (fun c' => { c' with userId := some u.id }) ∧
    (handleAuth s c (some p) rid).2 =
      (s.clients.filter (fun cl => cl.userId == some u.id && cl.id != c.id)).flatMap
        (fun cl => sendTo cl (.errorEv "DUPLICATE_CONNECTION"
          "New connection established from another location" rid)) ++
      sendTo c (.authSuccess u.id t rid) ++
      sendTo c (.initialState u.id
        ((((handleAuth s c (some p) rid).1.rooms).filter
          (fun q => q.2.members.contains u.id)).map (fun q => q.1))) ++
      notifyUserStatusChange (handleAuth s c (some p) rid).1 u.id "online" := by
  unfold handleAuth
  dsimp only
  rw [htok, hname]
  dsimp only [Option.getD]
  rw [if_neg (by simp [ht]), if_neg (by simp)]
  rw [hfind]
  dsimp only
  unfold finishAuth
  exact ⟨rfl, rfl⟩

theorem handleDisconnect_last (s : ServerState) (c : Conn) (uid : String) (user : User)
    (huid : c.userId = some uid) (huser : smFind s.users uid = some user)
    (hlast : ∀ cl ∈ s.clients, cl.userId = some uid → cl.id = c.id) :
    smFind (handleDisconnect s c).1.users uid =
      some { user with status := "offline", lastSeen := s.now } ∧
    (handleDisconnect s c).1.clients = s.clients.filter (fun cl => cl.id != c.id) ∧
    ∀ snd ∈ (handleDisconnect s c).2,
      snd.event = .userStatusChanged user.id user.username "offline" s.now := by
  unfold handleDisconnect
  rw [huid]
  dsimp only
  rw [huser]
  dsimp only
  have hany : (s.clients.filter (fun cl => cl.id != c.id)).any
      (fun cl => cl.userId == some uid && cl.id != c.id) = false := by
    rw [List.any_eq_false]
    intro cl hcl
    rcases List.mem_filter.mp hcl with ⟨hclmem, hclne⟩
    intro hconj
    simp only [Bool.and_eq_true] at hconj
    have hcluid : cl.userId = some uid := by simpa using hconj.1
    have := hlast cl hclmem hcluid
    rw [bne_iff_ne] at hclne
    exact hclne this
  rw [hany, if_neg (by simp)]
  refine ⟨smFind_smSet_self _ _ _, rfl, ?_⟩
  intro snd hsnd
  unfold notifyUserStatusChange at hsnd
  rw [smFind_smSet_self] at hsnd
  dsimp only at hsnd
  rcases List.mem_flatMap.mp hsnd with ⟨q, hq, hsndb⟩
  rcases mem_broadcastToRoom.mp hsndb with ⟨room, hroom, c'', hc'', hw, hsndEq⟩
  rw [hsndEq]

theorem handleDisconnect_hasOther (s : ServerState) (c : Conn) (uid : String)
    (user : User) (cl : Conn) (huid : c.userId = some uid)
    (huser : smFind s.users uid = some user) (hclmem : cl ∈ s.clients)
    (hclne : cl.id ≠ c.id) (hclu : cl.userId = some uid) :
    (handleDisconnect s c).1.users = s.users ∧ (handleDisconnect s c).2 = [] := by
  unfold handleDisconnect
  rw [huid]
  dsimp only
  rw [huser]
  dsimp only
  have hany : (s.clients.filter (fun x => x.id != c.id)).any
      (fun x => x.userId == some uid && x.id != c.id) = true := by
    rw [List.any_eq_true]
    refine ⟨cl, List.mem_filter.mpr ⟨hclmem, by simpa [bne_iff_ne] using hclne⟩, ?_⟩
    simp [hclu, bne_iff_ne, hclne]
  rw [hany, if_pos rfl]
  exact ⟨rfl, rfl⟩

/-- C5 (amended): the server enforces at most ONE live connection per user:
authenticating a connection as an already-known username disconnects every
other socket carrying that userId — each open duplicate is sent
`ERROR{DUPLICATE_CONNECTION}` and is terminated and dropped from the client
map, so after the handler only the authenticating socket holds the userId
(multi-tab is not supported).  `handleDisconnect` flips the user offline
(with `lastSeen = now` and a `USER_STATUS_CHANGED{offline}` broadcast to the
user's rooms) exactly when no other client entry carries the userId; if
another entry remains, nothing is broadcast and the user record is
untouched. -/
theorem single_connection_per_user :
    (∀ (s : ServerState) (c : Conn) (p : RawPayload) (rid : Option String)
        (t : String) (u : User),
      p.token = some t → p.username = some t → t ≠ "" →
      (s.users.map (fun q => q.2)).find? (fun u' => u'.username == t) = some u →
      (∀ cl ∈ (handleAuth s c (some p) rid).1.clients,
        cl.userId = some u.id → cl.id = c.id) ∧
      (∀ cl ∈ s.clients, cl.userId = some u.id → cl.id ≠ c.id → cl.isOpen = true →
        Send.mk cl.id (.errorEv "DUPLICATE_CONNECTION"
          "New connection established from another location" rid) ∈
          (handleAuth s c (some p) rid).2)) ∧
    (∀ (s : ServerState) (c : Conn) (uid : String) (user : User),
      c.userId = some uid → smFind s.users uid = some user →
      (∀ cl ∈ s.clients, cl.userId = some uid → cl.id = c.id) →
      smFind (handleDisconnect s c).1.users uid =
        some { user with status := "offline", lastSeen := s.now } ∧
      ∀ snd ∈ (handleDisconnect s c).2,
        snd.event = .userStatusChanged user.id user.username "offline" s.now) ∧
    (∀ (s : ServerState) (c : Conn) (uid : String) (user : User) (cl : Conn),
      c.userId = some uid → smFind s.users uid = some user →
      cl ∈ s.clients → cl.id ≠ c.id → cl.userId = some uid →
      (handleDisconnect s c).1.users = s.users ∧ (handleDisconnect s c).2 = []) := by
  refine ⟨?_, ?_, ?_⟩
  · intro s c p rid t u htok hname ht hfind
    have hshape := handleAuth_existing_shape s c p rid t u htok hname ht hfind
    constructor
    · intro cl hcl hclu
      rw [hshape.1] at hcl
      rcases List.mem_map.mp hcl with ⟨cl0, hcl0, hite⟩
      rcases List.mem_filter.mp hcl0 with ⟨hmem0, hpred⟩
      rw [Bool.not_eq_true'] at hpred
      by_cases h0 : (cl0.id == c.id) = true
      · rw [if_pos h0] at hite
        rw [← hite]
        simpa using h0
      · rw [if_neg (by simp [h0])] at hite
        rw [← hite] at hclu
        have hbe : (cl0.userId == some u.id) = true := by simpa using hclu
        have hbne : (cl0.id != c.id) = true := by
          cases hq : cl0.id == c.id
          · simp [bne, hq]
          · exact absurd hq h0
        rw [hbe, hbne] at hpred
        simp at hpred
    · intro cl hclmem hclu hclne hclopen
      rw [hshape.2]
      refine List.mem_append.mpr (Or.inl (List.mem_append.mpr (Or.inl
        (List.mem_append.mpr (Or.inl ?_)))))
      apply List.mem_flatMap.mpr
      refine ⟨cl, List.mem_filter.mpr ⟨hclmem, ?_⟩, ?_⟩
      · simp [hclu, bne_iff_ne, hclne]
      · simp [sendTo, hclopen]
  · intro s c uid user huid huser hlast
    have h := handleDisconnect_last s c uid user huid huser hlast
    exact ⟨h.1, h.2.2⟩
  · intro s c uid user cl huid huser hclmem hclne hclu
    exact handleDisconnect_hasOther s c uid user cl huid huser hclmem hclne hclu

/-- Trace for C5: alice authenticated on socket `uuid 0`, then a second socket
(`uuid 2`) connects. -/
def demoDup : ServerState :=
  runEvents (initState 0)
    [.connect "ip1", .frame (uuid 0) (authFrame "alice"), .connect "ip2"]

/-- The second (not yet authenticated) socket of `demoDup`. -/
def wTab2 : Conn := { id := uuid 2, userId := none, ip := "ip2", isOpen := true }

/-- The AUTHENTICATE payload for alice. -/
def wAuthPayload : RawPayload := { token := some "alice", username := some "alice" }

/-- Two open sockets carrying the same userId (for the disconnect instance). -/
def w5c1 : Conn := { id := "cA", userId := some "u1", ip := "ip", isOpen := true }

/-- Second socket of the same user. -/
def w5c2 : Conn := { id := "cB", userId := some "u1", ip := "ip", isOpen := true }

/-- The user record for the disconnect instance. -/
def w5user : User :=
  { id := "u1", username := "alice", status := "online", lastSeen := 0,
    token := "alice", ip := "ip" }

/-- A state with two sockets for one user (only constructible by hand: the
auth handler prevents it, which is the point of C5's correction). -/
def w5state : ServerState :=
  { clients := [w5c1, w5c2], users := [("u1", w5user)], rooms := [],
    typingUsers := [], messageHistory := [], rateBuckets := [], nextId := 0, now := 7 }

theorem single_connection_per_user_witness :
    (wAuthPayload.token = some "alice" ∧ wAuthPayload.username = some "alice" ∧
      "alice" ≠ "" ∧
      (demoDup.users.map (fun q => q.2)).find? (fun u' => u'.username == "alice") =
        some wAlice) ∧
    ((∀ cl ∈ (handleAuth demoDup wTab2 (some wAuthPayload) none).1.clients,
        cl.userId = some wAlice.id → cl.id = wTab2.id) ∧
      (∀ cl ∈ demoDup.clients, cl.userId = some wAlice.id → cl.id ≠ wTab2.id →
        cl.isOpen = true →
        Send.mk cl.id (.errorEv "DUPLICATE_CONNECTION"
          "New connection established from another location" none) ∈
          (handleAuth demoDup wTab2 (some wAuthPayload) none).2)) ∧
    (smFind (handleDisconnect demoA wAliceConn).1.users ("user-" ++ uuid 1) =
      some { wAlice with status := "offline", lastSeen := demoA.now } ∧
      ∀ snd ∈ (handleDisconnect demoA wAliceConn).2,
        snd.event = .userStatusChanged wAlice.id wAlice.username "offline" demoA.now) ∧
    ((handleDisconnect w5state w5c1).1.users = w5state.users ∧
      (handleDisconnect w5state w5c1).2 = []) :=
  ⟨⟨rfl, rfl, by decide, by decide⟩,
   single_connection_per_user.1 demoDup wTab2 wAuthPayload none "alice" wAlice
     rfl rfl (by decide) (by decide),
   single_connection_per_user.2.1 demoA wAliceConn ("user-" ++ uuid 1) wAlice
     rfl (by decide) (by decide),
   single_connection_per_user.2.2 w5state w5c1 "u1" w5user w5c2
     rfl (by decide) (by decide) (by decide) rfl⟩

/-- C5 counterexample: alice opens a second tab and authenticates — the FIRST
socket is sent `ERROR{DUPLICATE_CONNECTION}` and is terminated and removed
from the client map; two simultaneously open connections for one userId are
impossible, contradicting the claim's multi-tab premise. -/
theorem multi_tab_terminated_counterexample :
    ((step demoDup (.frame (uuid 2) (authFrame "alice"))).2.any
      (fun snd => snd.connId == uuid 0 &&
        match snd.event with
        | .errorEv code _ _ => code == "DUPLICATE_CONNECTION"
        | _ => false)) = true ∧
    ((step demoDup (.frame (uuid 2) (authFrame "alice"))).1.clients.map Conn.id =
      [uuid 2]) := by decide

/-! ## C9: no typing echo — via the one-connection-per-user invariant -/

/-- Invariant of reachable server states: (i) every `userId` held by a client
entry is a `user-`-tagged uuid drawn below the supply counter; (ii) user
records' ids likewise; (iii) no two client entries carry the same `userId`
(`handleAuth` terminates duplicates, and fresh users get fresh ids). -/
def GoodState (s : ServerState) : Prop :=
  (∀ c ∈ s.clients, ∀ u, c.userId = some u →
    ∃ k, k < s.nextId ∧ u = "user-" ++ uuid k) ∧
  (∀ p ∈ s.users, ∃ k, k < s.nextId ∧ p.2.id = "user-" ++ uuid k) ∧
  (∀ c1 ∈ s.clients, ∀ c2 ∈ s.clients, ∀ u,
    c1.userId = some u → c2.userId = some u → c1.id = c2.id)

theorem good_of_fields {s s' : ServerState}
    (hc : s'.clients = s.clients) (hu : s'.users = s.users)
    (hn : s.nextId ≤ s'.nextId) (hg : GoodState s) : GoodState s' := by
  obtain ⟨h1, h2, h3⟩ := hg
  refine ⟨?_, ?_, ?_⟩
  · intro c hcm u hcu
    rw [hc] at hcm
    obtain ⟨k, hk, hkeq⟩ := h1 c hcm u hcu
    exact ⟨k, lt_of_lt_of_le hk hn, hkeq⟩
  · intro p hpm
    rw [hu] at hpm
    obtain ⟨k, hk, hkeq⟩ := h2 p hpm
    exact ⟨k, lt_of_lt_of_le hk hn, hkeq⟩
  · intro c1 hc1 c2 hc2 u hu1 hu2
    rw [hc] at hc1 hc2
    exact h3 c1 hc1 c2 hc2 u hu1 hu2

theorem good_of_updateConn (s s' : ServerState) (k : String) (f : Conn → Conn)
    (hf : ∀ c, (f c).id = c.id ∧ (f c).userId = c.userId)
    (hc : s'.clients = updateConn s.clients k f) (hu : s'.users = s.users)
    (hn : s.nextId ≤ s'.nextId) (hg : GoodState s) : GoodState s' := by
  obtain ⟨h1, h2, h3⟩ := hg
  have hmem : ∀ c' ∈ s'.clients, ∃ c ∈ s.clients, c'.id = c.id ∧ c'.userId = c.userId := by
    intro c' hc'
    rw [hc] at hc'
    rcases List.mem_map.mp hc' with ⟨c, hcm, hite⟩
    by_cases h0 : (c.id == k) = true
    · rw [if_pos h0] at hite
      exact ⟨c, hcm, by rw [← hite]; exact (hf c).1, by rw [← hite]; exact (hf c).2⟩
    · rw [if_neg h0] at hite
      exact ⟨c, hcm, by rw [hite], by rw [hite]⟩
  refine ⟨?_, ?_, ?_⟩
  · intro c' hc' u hcu
    obtain ⟨c, hcm, -, hcuid⟩ := hmem c' hc'
    obtain ⟨j, hj, hjeq⟩ := h1 c hcm u (by rw [← hcuid]; exact hcu)
    exact ⟨j, lt_of_lt_of_le hj hn, hjeq⟩
  · intro p hpm
    rw [hu] at hpm
    obtain ⟨j, hj, hjeq⟩ := h2 p hpm
    exact ⟨j, lt_of_lt_of_le hj hn, hjeq⟩
  · intro c1' hc1 c2' hc2 u hu1 hu2
    obtain ⟨c1, hm1, hid1, huid1⟩ := hmem c1' hc1
    obtain ⟨c2, hm2, hid2, huid2⟩ := hmem c2' hc2
    rw [hid1, hid2]
    exact h3 c1 hm1 c2 hm2 u (by rw [← huid1]; exact hu1) (by rw [← huid2]; exact hu2)

theorem mem_updateConn_decomp {cs : List Conn} {k : String} {f : Conn → Conn} {c' : Conn}
    (h : c' ∈ updateConn cs k f) :
    ∃ c0 ∈ cs, (((c0.id == k) = true ∧ c' = f c0) ∨ ((c0.id == k) = false ∧ c' = c0)) := by
  rcases List.mem_map.mp h with ⟨c0, hc0, hite⟩
  by_cases h0 : (c0.id == k) = true
  · exact ⟨c0, hc0, Or.inl ⟨h0, by rw [← hite, if_pos h0]⟩⟩
  · have h0' : (c0.id == k) = false := by
      cases hq : (c0.id == k)
      · rfl
      · exact absurd hq h0
    exact ⟨c0, hc0, Or.inr ⟨h0', by rw [← hite, if_neg h0]⟩⟩

theorem good_authFail (s : ServerState) (c : Conn) (msg : String) (rid : Option String)
    (hg : GoodState s) : GoodState (authFail s c msg rid).1 :=
  good_of_updateConn s (authFail s c msg rid).1 c.id
    (fun c' => { c' with isOpen := false }) (fun _ => ⟨rfl, rfl⟩) rfl rfl (le_refl _) hg

theorem good_handleError (s : ServerState) (c : Conn) (hg : GoodState s) :
    GoodState (handleError s c).1 := by
  unfold handleError
  split
  · exact good_of_updateConn s _ c.id
      (fun c' => { c' with isOpen := false }) (fun _ => ⟨rfl, rfl⟩) rfl rfl (le_refl _) hg
  · exact hg

theorem good_handleJoinRoom (s : ServerState) (c : Conn) (pl : Option RawPayload)
    (rid : Option String) (hg : GoodState s) : GoodState (handleJoinRoom s c pl rid).1 := by
  unfold handleJoinRoom
  split
  · exact hg
  · split
    · exact hg
    · split
      · exact hg
      · split
        · exact hg
        · dsimp only
          split <;> split <;> exact good_of_fields rfl rfl (le_refl _) hg

theorem good_handleLeaveRoom (s : ServerState) (c : Conn) (pl : Option RawPayload)
    (rid : Option String) (hg : GoodState s) : GoodState (handleLeaveRoom s c pl rid).1 := by
  unfold handleLeaveRoom
  split
  · exact hg
  · split
    · exact hg
    · dsimp only
      split
      · split <;> exact good_of_fields rfl rfl (le_refl _) hg
      · exact hg

theorem good_handleChatMessage (s : ServerState) (c : Conn) (pl : Option RawPayload)
    (rid : Option String) (hg : GoodState s) : GoodState (handleChatMessage s c pl rid).1 := by
  unfold handleChatMessage
  split
  · exact hg
  · split
    · split
      · exact good_of_updateConn s _ c.id
          (fun c' => { c' with isOpen := false }) (fun _ => ⟨rfl, rfl⟩) rfl rfl (le_refl _) hg
      · exact hg
    · dsimp only
      split
      · split
        · exact good_of_fields (s := s) rfl rfl (Nat.le_succ s.nextId) hg
        · exact hg
      · exact hg

theorem good_handleTypingStatus (s : ServerState) (c : Conn) (pl : Option RawPayload)
    (hg : GoodState s) : GoodState (handleTypingStatus s c pl).1 := by
  unfold handleTypingStatus
  split
  · exact hg
  · split
    · exact hg
    · dsimp only
      split
      · split
        · exact good_of_fields rfl rfl (le_refl _) hg
        · exact hg
      · exact hg

theorem good_handleDisconnect (s : ServerState) (c : Conn) (hg : GoodState s) :
    GoodState (handleDisconnect s c).1 := by
  obtain ⟨h1, h2, h3⟩ := hg
  have hgood2 : ∀ (user' : User) (uid : String),
      (∃ k, k < s.nextId ∧ user'.id = "user-" ++ uuid k) →
      GoodState { s with clients := s.clients.filter (fun cl => cl.id != c.id),
                         users := smSet s.users uid user' } := by
    intro user' uid hbound
    refine ⟨?_, ?_, ?_⟩
    · intro c' hc' u hcu
      exact h1 c' (List.mem_filter.mp hc').1 u hcu
    · intro p hpm
      exact smSet_forall h2 hbound p hpm
    · intro c1 hc1 c2 hc2 u hu1 hu2
      exact h3 c1 (List.mem_filter.mp hc1).1 c2 (List.mem_filter.mp hc2).1 u hu1 hu2
  have hplain : GoodState { s with clients := s.clients.filter (fun cl => cl.id != c.id) } := by
    refine ⟨?_, h2, ?_⟩
    · intro c' hc' u hcu
      exact h1 c' (List.mem_filter.mp hc').1 u hcu
    · intro c1 hc1 c2 hc2 u hu1 hu2
      exact h3 c1 (List.mem_filter.mp hc1).1 c2 (List.mem_filter.mp hc2).1 u hu1 hu2
  unfold handleDisconnect
  split
  · exact hplain
  · split
    · exact hplain
    · rename_i user huser
      dsimp only
      split
      · exact hplain
      · apply hgood2
        have hmem := smFind_mem huser
        obtain ⟨k, hk, hkeq⟩ := h2 _ hmem
        exact ⟨k, hk, hkeq⟩

theorem good_handleAuth (s : ServerState) (c : Conn) (pl : Option RawPayload)
    (rid : Option String) (hg : GoodState s) : GoodState (handleAuth s c pl rid).1 := by
  obtain ⟨h1, h2, h3⟩ := hg
  unfold handleAuth
  split
  · exact good_authFail s c _ rid ⟨h1, h2, h3⟩
  · dsimp only
    split
    · exact good_authFail s c _ rid ⟨h1, h2, h3⟩
    · split
      · exact good_authFail s c _ rid ⟨h1, h2, h3⟩
      · split
        · -- existing user: duplicates removed, ws takes the existing userId
          rename_i u hfind
          unfold finishAuth
          dsimp only
          have humem : u ∈ s.users.map (fun q => q.2) := List.mem_of_find?_eq_some hfind
          rcases List.mem_map.mp humem with ⟨pu, hpu, hpu2⟩
          obtain ⟨k0, hk0, hk0eq⟩ := h2 pu hpu
          have huid : u.id = "user-" ++ uuid k0 := by rw [← hpu2]; exact hk0eq
          have hkey : ∀ c0 ∈ s.clients.filter
              (fun cl => !(cl.userId == some u.id && cl.id != c.id)),
              (c0.id == c.id) = false → c0.userId ≠ some u.id := by
            intro c0 hc0 hne0 habs
            rcases List.mem_filter.mp hc0 with ⟨-, hpred⟩
            rw [Bool.not_eq_true'] at hpred
            have hbe : (c0.userId == some u.id) = true := by simpa using habs
            have hbne : (c0.id != c.id) = true := by simp [bne, hne0]
            rw [hbe, hbne] at hpred
            simp at hpred
          refine ⟨?_, ?_, ?_⟩
          · intro c' hc' v hv
            rcases mem_updateConn_decomp hc' with ⟨c0, hc0, hcase⟩
            have hc0mem : c0 ∈ s.clients := (List.mem_filter.mp hc0).1
            rcases hcase with ⟨-, hupd⟩ | ⟨-, hsame⟩
            · rw [hupd] at hv
              have hvu : v = u.id := by
                have : some u.id = some v := hv
                simpa using this.symm
              exact ⟨k0, hk0, by rw [hvu, huid]⟩
            · rw [hsame] at hv
              exact h1 c0 hc0mem v hv
          · intro p hpm
            refine smSet_forall
              (P := fun q => ∃ k, k < s.nextId ∧ q.2.id = "user-" ++ uuid k)
              h2 ⟨k0, hk0, huid⟩ p hpm
          · intro c1' hc1 c2' hc2 v hv1 hv2
            rcases mem_updateConn_decomp hc1 with ⟨c10, hc10, hcase1⟩
            rcases mem_updateConn_decomp hc2 with ⟨c20, hc20, hcase2⟩
            rcases hcase1 with ⟨hb1, hupd1⟩ | ⟨hb1, hsame1⟩ <;>
              rcases hcase2 with ⟨hb2, hupd2⟩ | ⟨hb2, hsame2⟩
            · rw [hupd1, hupd2]
              show c10.id = c20.id
              rw [beq_iff_eq.mp hb1, beq_iff_eq.mp hb2]
            · exfalso
              rw [hupd1] at hv1
              have hvu : v = u.id := by
                have : some u.id = some v := hv1
                simpa using this.symm
              rw [hsame2] at hv2
              exact hkey c20 hc20 hb2 (by rw [hv2, hvu])
            · exfalso
              rw [hupd2] at hv2
              have hvu : v = u.id := by
                have : some u.id = some v := hv2
                simpa using this.symm
              rw [hsame1] at hv1
              exact hkey c10 hc10 hb1 (by rw [hv1, hvu])
            · rw [hsame1] at hv1 ⊢
              rw [hsame2] at hv2 ⊢
              exact h3 c10 (List.mem_filter.mp hc10).1 c20 (List.mem_filter.mp hc20).1 v hv1 hv2
        · -- new user: fresh `user-${uuid}` id
          unfold finishAuth
          dsimp only
          refine ⟨?_, ?_, ?_⟩
          · intro c' hc' v hv
            rcases mem_updateConn_decomp hc' with ⟨c0, hc0, hcase⟩
            rcases hcase with ⟨-, hupd⟩ | ⟨-, hsame⟩
            · rw [hupd] at hv
              have hvu : v = "user-" ++ uuid s.nextId := by
                have : some ("user-" ++ uuid s.nextId) = some v := hv
                simpa using this.symm
              exact ⟨s.nextId, Nat.lt_succ_self _, hvu⟩
            · rw [hsame] at hv
              obtain ⟨k, hk, hkeq⟩ := h1 c0 hc0 v hv
              exact ⟨k, Nat.lt_succ_of_lt hk, hkeq⟩
          · intro p hpm
            refine smSet_forall
              (P := fun q => ∃ k, k < s.nextId + 1 ∧ q.2.id = "user-" ++ uuid k)
              (fun q hq => ?_) ⟨s.nextId, Nat.lt_succ_self _, rfl⟩ p hpm
            obtain ⟨k, hk, hkeq⟩ := h2 q hq
            exact ⟨k, Nat.lt_succ_of_lt hk, hkeq⟩
          · intro c1' hc1 c2' hc2 v hv1 hv2
            rcases mem_updateConn_decomp hc1 with ⟨c10, hc10, hcase1⟩
            rcases mem_updateConn_decomp hc2 with ⟨c20, hc20, hcase2⟩
            have hfresh : ∀ c0 ∈ s.clients, c0.userId ≠ some ("user-" ++ uuid s.nextId) := by
              intro c0 hc0 habs
              obtain ⟨k, hk, hkeq⟩ := h1 c0 hc0 _ habs
              have := userTag_injective k s.nextId hkeq.symm
              omega
            rcases hcase1 with ⟨hb1, hupd1⟩ | ⟨hb1, hsame1⟩ <;>
              rcases hcase2 with ⟨hb2, hupd2⟩ | ⟨hb2, hsame2⟩
            · rw [hupd1, hupd2]
              show c10.id = c20.id
              rw [beq_iff_eq.mp hb1, beq_iff_eq.mp hb2]
            · exfalso
              rw [hupd1] at hv1
              have hvu : v = "user-" ++ uuid s.nextId := by
                have : some ("user-" ++ uuid s.nextId) = some v := hv1
                simpa using this.symm
              rw [hsame2] at hv2
              exact hfresh c20 hc20 (by rw [hv2, hvu])
            · exfalso
              rw [hupd2] at hv2
              have hvu : v = "user-" ++ uuid s.nextId := by
                have : some ("user-" ++ uuid s.nextId) = some v := hv2
                simpa using this.symm
              rw [hsame1] at hv1
              exact hfresh c10 hc10 (by rw [hv1, hvu])
            · rw [hsame1] at hv1 ⊢
              rw [hsame2] at hv2 ⊢
              exact h3 c10 hc10 c20 hc20 v hv1 hv2

theorem good_handleMessage (s : ServerState) (c : Conn) (d : Decoded)
    (hg : GoodState s) : GoodState (handleMessage s c d).1 := by
  unfold handleMessage
  rcases hcons : consume s.rateBuckets c.ip with ⟨ok, buckets'⟩
  dsimp only
  have hgood1 : GoodState { s with rateBuckets := buckets' } :=
    good_of_fields (s := s) rfl rfl (le_refl _) hg
  cases ok with
  | false => exact good_handleError _ _ hgood1
  | true =>
    rw [if_pos rfl]
    split
    · exact hgood1
    · split
      · exact good_handleAuth _ _ _ _ hgood1
      · split
        · exact good_handleJoinRoom _ _ _ _ hgood1
        · split
          · exact good_handleLeaveRoom _ _ _ _ hgood1
          · split
            · exact good_handleChatMessage _ _ _ _ hgood1
            · split
              · exact good_handleTypingStatus _ _ _ hgood1
              · split
                · exact hgood1
                · split
                  · exact hgood1
                  · exact hgood1

theorem good_step (s : ServerState) (e : Event) (hg : GoodState s) :
    GoodState (step s e).1 := by
  unfold step
  cases e with
  | connect ip =>
    dsimp only
    obtain ⟨h1, h2, h3⟩ := hg
    refine ⟨?_, ?_, ?_⟩
    · intro c hc u hu
      rcases List.mem_append.mp hc with hc | hc
      · obtain ⟨k, hk, hkeq⟩ := h1 c hc u hu
        exact ⟨k, Nat.lt_succ_of_lt hk, hkeq⟩
      · rw [List.mem_singleton] at hc
        rw [hc] at hu
        simp at hu
    · intro p hp
      obtain ⟨k, hk, hkeq⟩ := h2 p hp
      exact ⟨k, Nat.lt_succ_of_lt hk, hkeq⟩
    · intro c1 hc1 c2 hc2 u hu1 hu2
      rcases List.mem_append.mp hc1 with hc1 | hc1
      · rcases List.mem_append.mp hc2 with hc2 | hc2
        · exact h3 c1 hc1 c2 hc2 u hu1 hu2
        · rw [List.mem_singleton] at hc2
          rw [hc2] at hu2
          simp at hu2
      · rw [List.mem_singleton] at hc1
        rw [hc1] at hu1
        simp at hu1
  | frame connId d =>
    dsimp only
    split
    · split
      · exact good_handleMessage _ _ _ hg
      · exact hg
    · exact hg
  | close connId =>
    dsimp only
    split
    · exact good_handleDisconnect _ _ hg
    · exact hg
  | sockErr connId =>
    dsimp only
    split
    · exact good_handleError _ _ hg
    · exact hg

theorem good_initState (now : Nat) : GoodState (initState now) := by
  refine ⟨?_, ?_, ?_⟩
  · intro c hc
    simp [initState] at hc
  · intro p hp
    simp [initState] at hp
  · intro c1 hc1
    simp [initState] at hc1

theorem reachable_good (s : ServerState) (hr : Reachable s) : GoodState s := by
  induction hr with
  | init now => exact good_initState now
  | next s e hs ih => exact good_step s e ih

theorem typing_no_echo_of_good (s : ServerState) (hg : GoodState s) (c : Conn)
    (hc : c ∈ s.clients) (pl : Option RawPayload) (snd : Send)
    (hsnd : snd ∈ (handleTypingStatus s c pl).2) :
    snd.connId ≠ c.id ∧
    ∀ c' ∈ s.clients, c'.id = snd.connId → c'.userId ≠ c.userId := by
  unfold handleTypingStatus at hsnd
  split at hsnd
  · simp at hsnd
  · rename_i uid hcuEq
    split at hsnd
    · simp at hsnd
    · dsimp only at hsnd
      split at hsnd
      · split at hsnd
        · -- the broadcast branch
          rcases mem_broadcastToRoom.mp hsnd with ⟨room', hroom', c'', hc'', hw, hsndEq⟩
          rcases wantsBroadcast_iff.mp hw with ⟨hne, -, -⟩
          constructor
          · rw [hsndEq]
            exact hne c.id rfl
          · intro c' hc' hid heq
            obtain ⟨-, -, h3⟩ := hg
            have hcc : c'.id = c.id :=
              h3 c' hc' c hc uid (by rw [heq, hcuEq]) hcuEq
            have hid' : c'.id = c''.id := by rw [hid, hsndEq]
            exact hne c.id rfl (by rw [← hid']; exact hcc)
        · simp at hsnd
      · simp at hsnd

theorem reachable_runEvents (s : ServerState) (es : List Event) (h : Reachable s) :
    Reachable (runEvents s es) := by
  induction es generalizing s with
  | nil => exact h
  | cons e t ih => exact ih _ (Reachable.next s e h)

theorem reachable_demoAB : Reachable demoAB :=
  reachable_runEvents _ _ (reachable_runEvents _ _ (Reachable.init 0))

/-- C9: in every reachable server state, a `TYPING_STATUS` processed from a
connection never produces a `TYPING_UPDATE` delivered to the triggering socket
or to ANY connection carrying the same userId: `broadcastToRoom` excludes the
triggering socket, and the one-connection-per-user invariant (duplicates are
terminated at AUTHENTICATE time, fresh users get fresh ids) guarantees the
sender's user has no other connection — so the multi-tab case of the claim is
vacuously covered as well.  Delivered targets are room members only
(see the broadcast-targeting theorem for C10). -/
theorem typing_never_echoed_to_sender (s : ServerState) (hr : Reachable s)
    (c : Conn) (hc : c ∈ s.clients) (pl : Option RawPayload) (snd : Send)
    (hsnd : snd ∈ (handleTypingStatus s c pl).2) :
    snd.connId ≠ c.id ∧
    ∀ c' ∈ s.clients, c'.id = snd.connId → c'.userId ≠ c.userId :=
  typing_no_echo_of_good s (reachable_good s hr) c hc pl snd hsnd

/-- Bob's socket in `demoAB`. -/
def wBobConn : Conn :=
  { id := uuid 2, userId := some ("user-" ++ uuid 3), ip := "ip2", isOpen := true }

/-- Bob's TYPING_STATUS payload. -/
def wTypingPayload : RawPayload := { roomId := some "general", isTyping := some true }

theorem typing_never_echoed_to_sender_witness :
    (wBobConn ∈ demoAB.clients ∧
      Send.mk (uuid 0) (.typingUpdate "general" ("user-" ++ uuid 3) "bob" true) ∈
        (handleTypingStatus demoAB wBobConn (some wTypingPayload)).2) ∧
    ((Send.mk (uuid 0) (.typingUpdate "general" ("user-" ++ uuid 3) "bob" true)).connId ≠
        wBobConn.id ∧
      ∀ c' ∈ demoAB.clients,
        c'.id = (Send.mk (uuid 0)
          (.typingUpdate "general" ("user-" ++ uuid 3) "bob" true)).connId →
        c'.userId ≠ wBobConn.userId) :=
  ⟨⟨by decide, by decide⟩,
   typing_never_echoed_to_sender demoAB reachable_demoAB wBobConn (by decide)
     (some wTypingPayload) _ (by decide)⟩
